/-
Verification of the SynapseKernel core against its natural-language
specification.

Each section shallowly embeds one subsystem of the kernel, translated
directly from the C sources:
  * the fixed-block kernel heap        (src/core/memory/heap/heap.c)
  * the boot orchestrator             (src/core/kernel_main.c)
  * the round-robin scheduler          (src/core/scheduler/scheduler.c)
  * the 4-level MMU paging layer       (src/core/mmu/kernel_mmu.c)
  * the tensor stride computation      (src/core/memory/ai_memory/ai_memory.c)
  * the syscall dispatch plane         (src/core/interrupts/syscall.c, svc.c)
  * the GICv2 IRQ dispatch             (src/core/interrupts/interrupt.c)
  * the task constructor               (src/core/task/task.c)

Machine integers are modelled as Nat with explicit `% 2^w` at the points
where the C code can wrap; fallible operations return their status code
exactly as the C does.
-/
import Mathlib

namespace Synapse

/-! ## Status codes (src/includes/synapse/status.h) -/

def EOK : Int := 0
def EINVARG : Int := 2
def ENOMEM : Int := 3
def ENOMAP : Int := 5
def ENOTREADY : Int := 7
def EFAULT : Int := 8
def ENOTASK : Int := 11
def EINVSYSCALL : Int := 13
def ENOENT : Int := 15

/-! ## Kernel heap (src/core/memory/heap/heap.c, heap.h)

The heap state is the block table: a dense list of per-block status
words.  `entries` has one entry per 4 KiB block; the heap start address
`saddr` turns block indices into addresses.  -/

def KERNEL_HEAP_BLOCK_SIZE : Nat := 4096

def HEAP_BLOCK_TABLE_ENTRY_FREE : Nat := 0x00
def HEAP_BLOCK_TABLE_ENTRY_TAKEN : Nat := 0x01
def HEAP_BLOCK_HAS_NEXT : Nat := 0b10000000
def HEAP_BLOCK_IS_FIRST : Nat := 0b01000000

/-- `heap_get_entry_type` from heap.c: the low nibble of a block entry. -/
def heap_get_entry_type (entry : Nat) : Nat := entry &&& 0x0F

/-- The scan loop of `heap_get_start_block`: walks the entries carrying
the current run length `bc` and run start `bs` (-1 when no run is open);
a non-free entry resets the run; the loop breaks as soon as `bc` reaches
`total_blocks`.  `i` is the index of the head of the remaining list. -/
def heap_scan (total_blocks : Nat) : List Nat → Nat → Nat → Int → Int
  | [], _, _, bs => bs
  | e :: rest, i, bc, bs =>
    if heap_get_entry_type e ≠ HEAP_BLOCK_TABLE_ENTRY_FREE then
      heap_scan total_blocks rest (i + 1) 0 (-1)
    else
      let bs' := if bs = -1 then (i : Int) else bs
      let bc' := bc + 1
      if bc' = total_blocks then bs'
      else heap_scan total_blocks rest (i + 1) bc' bs'

/-- `heap_get_start_block` from heap.c: result of the scan, with `-ENOMEM`
only when no free block at all was left open at loop exit (`bs == -1`). -/
def heap_get_start_block (entries : List Nat) (total_blocks : Nat) : Int :=
  let bs := heap_scan total_blocks entries 0 0 (-1)
  if bs = -1 then -ENOMEM else bs

/-- `heap_align_value_to_upper` from heap.c.  The argument is a `uint32_t`
in C, so the addition wraps modulo 2^32. -/
def heap_align_value_to_upper (val : Nat) : Nat :=
  if val % KERNEL_HEAP_BLOCK_SIZE = 0 then val
  else (val - val % KERNEL_HEAP_BLOCK_SIZE + KERNEL_HEAP_BLOCK_SIZE) % 2 ^ 32

/-- The marking loop of `heap_mark_blocks_taken`.  `n` counts the
remaining iterations, so the current index `i` equals `end_block` exactly
when `n = 0`; the entry prepared for the next block receives
`HEAP_BLOCK_HAS_NEXT` whenever `i != end_block`, i.e. whenever `n ≠ 0`.
A write past the end of the list (an out-of-bounds write in the C) is a
no-op of `List.set`. -/
def heap_mark_loop : List Nat → Nat → Nat → Nat → List Nat
  | entries, _, _, 0 => entries
  | entries, i, entry, n + 1 =>
    let entries' := entries.set i entry
    let entry' :=
      if n = 0 then HEAP_BLOCK_TABLE_ENTRY_TAKEN
      else HEAP_BLOCK_TABLE_ENTRY_TAKEN ||| HEAP_BLOCK_HAS_NEXT
    heap_mark_loop entries' (i + 1) entry' n

/-- `heap_mark_blocks_taken` from heap.c: the first block gets
`TAKEN|IS_FIRST` (plus `HAS_NEXT` when more than one block). -/
def heap_mark_blocks_taken (entries : List Nat) (start_block total_blocks : Nat) :
    List Nat :=
  let entry0 :=
    if total_blocks > 1 then
      HEAP_BLOCK_TABLE_ENTRY_TAKEN ||| HEAP_BLOCK_IS_FIRST ||| HEAP_BLOCK_HAS_NEXT
    else HEAP_BLOCK_TABLE_ENTRY_TAKEN ||| HEAP_BLOCK_IS_FIRST
  heap_mark_loop entries start_block entry0 total_blocks

/-- `heap_malloc_blocks` + `heap_block_to_address` from heap.c: on a
non-negative start block, returns `saddr + start * 4096` and the updated
table; on failure returns no address and the table unchanged. -/
def heap_malloc_blocks (saddr : Nat) (entries : List Nat) (total_blocks : Nat) :
    Option Nat × List Nat :=
  let start_block := heap_get_start_block entries total_blocks
  if start_block < 0 then (none, entries)
  else
    (some (saddr + start_block.toNat * KERNEL_HEAP_BLOCK_SIZE),
      heap_mark_blocks_taken entries start_block.toNat total_blocks)

/-- `heap_malloc` from heap.c.  `size` is a `size_t`, but
`heap_align_value_to_upper` takes a `uint32_t`, so the size is first
truncated modulo 2^32. -/
def heap_malloc (saddr : Nat) (entries : List Nat) (size : Nat) :
    Option Nat × List Nat :=
  let aligned_size := heap_align_value_to_upper (size % 2 ^ 32)
  let total_blocks := aligned_size / KERNEL_HEAP_BLOCK_SIZE
  heap_malloc_blocks saddr entries total_blocks

/-- The freeing loop of `heap_mark_blocks_free`: clears entries starting
at `start_block` and stops after the first entry whose previous value had
no `HAS_NEXT` bit.  `fuel` is `entries.length - i`, mirroring the
`i < table->total` loop bound. -/
def heap_free_loop : List Nat → Nat → Nat → List Nat
  | entries, _, 0 => entries
  | entries, i, fuel + 1 =>
    let old := entries.getD i 0
    let entries' := entries.set i HEAP_BLOCK_TABLE_ENTRY_FREE
    if old &&& HEAP_BLOCK_HAS_NEXT = 0 then entries'
    else heap_free_loop entries' (i + 1) fuel

/-- `heap_mark_blocks_free` from heap.c. -/
def heap_mark_blocks_free (entries : List Nat) (start_block : Nat) : List Nat :=
  heap_free_loop entries start_block (entries.length - start_block)

/-- `heap_free` from heap.c: frees starting at the block index of `ptr`. -/
def heap_free (saddr : Nat) (entries : List Nat) (ptr : Nat) : List Nat :=
  heap_mark_blocks_free entries ((ptr - saddr) / KERNEL_HEAP_BLOCK_SIZE)

/-- A fresh table as produced by `heap_create`: every entry FREE. -/
def heap_create_entries (total : Nat) : List Nat :=
  List.replicate total HEAP_BLOCK_TABLE_ENTRY_FREE

/-- Whether the block map holds a run of `n` consecutive FREE blocks
anywhere (the condition under which the spec allows `alloc` to succeed). -/
def heap_has_free_run (entries : List Nat) (n : Nat) : Bool :=
  (List.range entries.length).any fun i =>
    decide (i + n ≤ entries.length) &&
      (List.range n).all fun j =>
        heap_get_entry_type (entries.getD (i + j) 0) = HEAP_BLOCK_TABLE_ENTRY_FREE

/-- The block-map marking the spec prescribes for an allocation of `n`
blocks starting at `start`: `IS_FIRST` on the first block only, `TAKEN`
everywhere, `HAS_NEXT` on every block except the last, and no `HAS_NEXT`
on the last block. -/
def heap_alloc_well_marked (entries : List Nat) (start n : Nat) : Bool :=
  (List.range n).all (fun j =>
    let e := entries.getD (start + j) 0
    (heap_get_entry_type e = HEAP_BLOCK_TABLE_ENTRY_TAKEN) &&
    ((e &&& HEAP_BLOCK_IS_FIRST ≠ 0) = decide (j = 0)) &&
    ((e &&& HEAP_BLOCK_HAS_NEXT ≠ 0) = decide (j + 1 < n)))

/-! ## Boot orchestrator (src/core/kernel_main.c)

`kernel_main` is a straight line of UART diagnostics and initialization
calls; we record its observable behaviour as a list of events.  The
outcomes of the fallible subsystem initializations are oracle inputs
(they depend on hardware state outside this file).  The boot record is
taken non-null: the claim under study passes a concrete 32-byte record. -/

def BOOT_INFO_MAGIC : Nat := 0x424F4F54

structure boot_info_t where
  magic : Nat
  architecture : Nat
  ram_size : Nat
  kernel_size : Nat

/-- Return values of the fallible initialization steps called by
`kernel_main`, in call order. -/
structure KernelEnv where
  memory_system_init_res : Int
  memory_run_tests_res : Int
  process_management_init_res : Int
  create_kernel_process_res : Int
  create_user_process_res : Int

/-- The externally observable steps of `kernel_main`. -/
inductive KernelEvent where
  | started
  | bootVerified
  | bootWarning
  | memSystemInit (ram_size : Nat)
  | memTests
  | memTestsFailed
  | procMgmtInit
  | createKernelProcess
  | createUserProcess
  | procMgmtStart
  | unexpectedReturn
  | halt
deriving DecidableEq, Repr

/-- `kernel_main` from kernel_main.c as an event trace.  A `halt` event
models one of the `while (1) {}` loops: nothing follows it. -/
def kernel_main (boot_info : boot_info_t) (env : KernelEnv) : List KernelEvent :=
  [KernelEvent.started] ++
  (if boot_info.magic = BOOT_INFO_MAGIC then [KernelEvent.bootVerified]
   else [KernelEvent.bootWarning]) ++
  [KernelEvent.memSystemInit boot_info.ram_size] ++
  (if env.memory_system_init_res < 0 then [KernelEvent.halt]
   else
    [KernelEvent.memTests] ++
    (if env.memory_run_tests_res < 0 then [KernelEvent.memTestsFailed] else []) ++
    [KernelEvent.procMgmtInit] ++
    (if env.process_management_init_res < 0 then [KernelEvent.halt]
     else
      [KernelEvent.createKernelProcess] ++
      (if env.create_kernel_process_res < 0 then [KernelEvent.halt]
       else
        [KernelEvent.createUserProcess] ++
        (if env.create_user_process_res < 0 then [KernelEvent.halt]
         else [KernelEvent.procMgmtStart, KernelEvent.unexpectedReturn,
               KernelEvent.halt]))))

/-! ## Task module (src/core/task/task.c, task.h)

Only the fields `task_new` initializes and the claims inspect are kept;
the circular-list linkage and the register frame do not affect the
constructed task's `id`, `state` or `priority` and are left out of the
record (the list insertion never fails). -/

def TASK_STATE_NEW : Nat := 0
def TASK_STATE_READY : Nat := 1
def TASK_STATE_RUNNING : Nat := 2
def TASK_STATE_BLOCKED : Nat := 3
def TASK_STATE_FINISHED : Nat := 4

def TASK_PRIORITY_LOW : Nat := 0
def TASK_PRIORITY_NORMAL : Nat := 1
def TASK_PRIORITY_HIGH : Nat := 2

structure Task where
  id : Nat
  state : Nat
  priority : Nat
deriving DecidableEq, Repr

/-- `task_new` from task.c.  `task_priority` is a `uint8_t`; `alloc_ok`
is the outcome of the `kmalloc` of the task structure; `next_task_id` is
the monotonic id counter.  After the `memset` the priority is set to
`TASK_PRIORITY_NORMAL` and overwritten by the argument only when the
argument is non-zero (`if (task_priority)`). -/
def task_new (task_priority : Nat) (alloc_ok : Bool) (next_task_id : Nat) :
    Option Task :=
  if task_priority ≠ TASK_PRIORITY_HIGH ∧ task_priority ≠ TASK_PRIORITY_LOW ∧
      task_priority ≠ TASK_PRIORITY_NORMAL then none
  else if ¬alloc_ok then none
  else some
    { id := next_task_id
      state := TASK_STATE_NEW
      priority := if task_priority ≠ 0 then task_priority else TASK_PRIORITY_NORMAL }

/-! ## Scheduler (src/core/scheduler/scheduler.c, process.c)

State kept: the per-pid main-task states (`process_table[i]->task->state`,
`none` when the slot is empty), the current-process index, the running
flag and the `current_task` global of task.c, identified here by the pid
owning it.  Saving the register frame has no observable effect on this
state and is modelled as the identity. -/

def SYNAPSE_MAX_PROCESSES : Nat := 64

structure SchedState where
  procs : List (Option Nat)
  current_process : Nat
  current_task : Option Nat
  scheduler_running : Bool
deriving DecidableEq, Repr

/-- `task_schedule_next_process` from scheduler.c: the first pid in
`[0, SYNAPSE_MAX_PROCESSES)` whose main task is READY.  The C function's
return type is `pid_t = uint16_t`, so the `-ENOENT` miss value wraps to
`65521`. -/
def task_schedule_next_process (procs : List (Option Nat)) : Nat :=
  match (List.range SYNAPSE_MAX_PROCESSES).find?
      (fun i => procs.getD i none = some TASK_STATE_READY) with
  | some i => i
  | none => (65536 - 15)

/-- `process_switch` from process.c composed with `task_switch` from
task.c: rejects an invalid pid or empty slot; otherwise records the new
current process, sets the switched-to task RUNNING and makes it the
current task. -/
def process_switch (s : SchedState) (id : Nat) : SchedState × Int :=
  if SYNAPSE_MAX_PROCESSES ≤ id ∨ s.procs.getD id none = none then (s, -EINVARG)
  else
    ({ s with
        procs := s.procs.set id (some TASK_STATE_RUNNING)
        current_process := id
        current_task := some id }, EOK)

/-- `scheduler_timer_handler` from scheduler.c: when running, demote the
current RUNNING task to READY, pick the lowest READY pid starting from 0,
and switch to it (the switch result is ignored). -/
def scheduler_timer_handler (s : SchedState) : SchedState × Int :=
  if ¬s.scheduler_running then (s, EOK)
  else
    let s1 :=
      match s.current_task with
      | none => s
      | some t =>
        if s.procs.getD t none = some TASK_STATE_RUNNING then
          { s with procs := s.procs.set t (some TASK_STATE_READY) }
        else s
    let next_pid := task_schedule_next_process s1.procs
    ((process_switch s1 next_pid).1, EOK)

/-- Iterated timer ticks, returning the pid selected at each tick
(the argument `task_schedule_next_process` hands to `process_switch`)
together with the final state. -/
def scheduler_ticks : SchedState → Nat → List Nat × SchedState
  | s, 0 => ([], s)
  | s, n + 1 =>
    let sel :=
      if s.scheduler_running then
        let s1 :=
          match s.current_task with
          | none => s
          | some t =>
            if s.procs.getD t none = some TASK_STATE_RUNNING then
              { s with procs := s.procs.set t (some TASK_STATE_READY) }
            else s
        [task_schedule_next_process s1.procs]
      else []
    let r := scheduler_ticks (scheduler_timer_handler s).1 n
    (sel ++ r.1, r.2)

/-! ## Tensor strides (src/core/memory/ai_memory/ai_memory.c)

Only the fields `calculate_strides` and `ai_tensor_set_layout` read or
write are kept (`ndim`, `shape`, `strides`, `layout`); the data buffer,
dtype and flags play no part in stride computation.  The `strides`
allocation in `calculate_strides` is assumed to succeed (its failure
would leave the tensor unchanged). -/

inductive tensor_layout_t where
  | ROW_MAJOR
  | COLUMN_MAJOR
  | NCHW
  | NHWC
deriving DecidableEq, Repr

structure tensor_t where
  ndim : Nat
  shape : List Nat
  strides : Option (List Nat)
  layout : tensor_layout_t
deriving DecidableEq, Repr

/-- The downward loop of `calculate_strides` for `ndim ≥ 3`:
`strides[i] = strides[i+1] * shape[i+1]` for `i` from `ndim-2` down
to `0`.  The argument `n` is `i + 1` for the next index to write. -/
def calc_strides_loop (shape : List Nat) : List Nat → Nat → List Nat
  | strides, 0 => strides
  | strides, n + 1 =>
    calc_strides_loop shape
      (strides.set n (strides.getD (n + 1) 0 * shape.getD (n + 1) 0)) n

/-- `calculate_strides` from ai_memory.c: returns the tensor unchanged on
an empty shape or `ndim = 0`; otherwise computes strides by the
row-major rule in all three branches (1-D, 2-D, higher), never reading
`tensor->layout`. -/
def calculate_strides (t : tensor_t) : tensor_t :=
  if t.shape = [] ∨ t.ndim = 0 then t
  else if t.ndim = 1 then { t with strides := some [1] }
  else if t.ndim = 2 then { t with strides := some [t.shape.getD 1 0, 1] }
  else
    { t with
        strides := some (calc_strides_loop t.shape
          ((List.replicate t.ndim 0).set (t.ndim - 1) 1) (t.ndim - 1)) }

/-- `ai_tensor_set_layout` from ai_memory.c: no-op when the layout is
unchanged, otherwise stores the new layout and recomputes strides (the
data is not permuted). -/
def ai_tensor_set_layout (t : tensor_t) (new_layout : tensor_layout_t) :
    tensor_t × Int :=
  if t.layout = new_layout then (t, EOK)
  else (calculate_strides { t with layout := new_layout }, EOK)

/-- The column-major stride recurrence from the spec:
`s[0] = 1` and `s[i] = s[i-1] * shape[i-1]` for `0 < i < ndim`. -/
def column_major_law (t : tensor_t) : Bool :=
  match t.strides with
  | none => false
  | some s =>
    decide (s.getD 0 0 = 1) &&
    (List.range t.ndim).all fun i =>
      i = 0 || decide (s.getD i 0 = s.getD (i - 1) 0 * t.shape.getD (i - 1) 0)

/-! ## Syscall dispatch (src/core/interrupts/syscall.c, svc.c)

A registered handler is modelled by its observable return behaviour: a
function from the four `long` arguments to the `int` result.  The table
is the `syscall_table` array, one optional handler per slot. -/

def SYSCALL_MAX : Nat := 6

def SyscallFn : Type := Int → Int → Int → Int → Int

/-- `syscall_handler` from syscall.c: numbers below 0 or at least
`SYSCALL_MAX`, and empty slots, yield `-EINVSYSCALL`; otherwise the
registered handler's result. -/
def syscall_handler (table : List (Option SyscallFn)) (syscall_num : Int)
    (arg1 arg2 arg3 arg4 : Int) : Int :=
  if syscall_num < 0 ∨ (SYSCALL_MAX : Int) ≤ syscall_num then -EINVSYSCALL
  else
    match table.getD syscall_num.toNat none with
    | none => -EINVSYSCALL
    | some handler => handler arg1 arg2 arg3 arg4

/-- The C cast `(int)(uint64_t)ptr`: truncation of a 64-bit value to the
32-bit two's-complement int. -/
def int_of_uint64 (x : Nat) : Int :=
  if x % 2 ^ 32 < 2 ^ 31 then ((x % 2 ^ 32 : Nat) : Int)
  else ((x % 2 ^ 32 : Nat) : Int) - 2 ^ 32

/-- `syscall_process_malloc` from syscall.c: 0 when there is no current
process or the size is non-positive; otherwise the pointer
`process_malloc` produced (`ptr`, a 64-bit address, 0 on failure), cast
to the 32-bit `int` return type of the dispatch table. -/
def syscall_process_malloc (has_current : Bool) (size : Int) (ptr : Nat) : Int :=
  if ¬has_current ∨ size ≤ 0 then 0
  else int_of_uint64 ptr

/-- The store `int_frame->x0 = result` in `svc_c_handler` (svc.c): the
`int` result converted to the `uint64_t` register field, i.e. the value
the caller receives in `x0` after `ERET`. -/
def svc_result_to_x0 (result : Int) : Nat :=
  (result % (2 ^ 64 : Int)).toNat

/-- The full value delivered in `x0` for a `PROCESS_MALLOC` syscall whose
`process_malloc` returned the address `ptr`. -/
def process_malloc_x0 (ptr : Nat) : Nat :=
  svc_result_to_x0 (syscall_process_malloc true 64 ptr)

/-! ## IRQ dispatch (src/core/interrupts/interrupt.c)

`irq_handler` is modelled with its inputs (the `interrupt_initialized`
flag, the handler table, the value the `GICC_IAR` read returns) and its
observable outputs: the result, the list of handler slots invoked and
the list of values written to `GICC_EOIR`.  A registered handler is
modelled by the result it returns. -/

def MAX_INTERRUPT_HANDLERS : Nat := 128

structure IrqOutcome where
  result : Int
  invoked : List Nat
  eoir_writes : List Nat
deriving DecidableEq, Repr

/-- `irq_handler` from interrupt.c.  `iar` is the `uint32_t` read from
`GICC_IAR`; the interrupt id is its low 10 bits; ids at or above 1020
return EOK immediately, before any handler call and before the EOIR
write. -/
def irq_handler (initialized : Bool) (handlers : List (Option Int)) (iar : Nat) :
    IrqOutcome :=
  if ¬initialized then ⟨-ENOTREADY, [], []⟩
  else
    let interrupt_id := iar &&& 0x3FF
    if 1020 ≤ interrupt_id then ⟨EOK, [], []⟩
    else
      match handlers.getD interrupt_id none with
      | none => ⟨EOK, [], [iar]⟩
      | some res => ⟨res, [interrupt_id], [iar]⟩

/-! ## MMU / paging (src/core/mmu/kernel_mmu.c, arm_mmu.h, kernel_mmu.h)

Physical memory holding page tables is modelled as a partial map from a
table's physical base address to its 512 entries.  The C code reaches
the same physical table through several virtual aliases: the kmalloc
pointer of a freshly allocated table, the bare physical address
(identity-mapped early boot), and `phys + KERNEL_VIRT_BASE` (the high
linear alias used by `kernel_mmu_translate`).  Dereferences resolve an
alias to its physical address exactly as `kernel_virt_to_phys` does;
reading unallocated memory yields 0 (in C it is undefined). -/

def PAGE_SIZE : Nat := 4096
def KERNEL_VIRT_BASE : Nat := 0xFFFF000000000000

def PGD_SHIFT : Nat := 39
def PUD_SHIFT : Nat := 30
def PMD_SHIFT : Nat := 21
def PTE_SHIFT : Nat := 12
def TABLE_IDX_MASK : Nat := 0x1FF

def PTE_TYPE_TABLE : Nat := 3
def PTE_TYPE_PAGE : Nat := 3
def PTE_TABLE_ADDR_MASK : Nat := 0xFFFFFFFFF000
def PTE_BLOCK_ADDR_MASK : Nat := 0xFFFFFFFFF000

def PTE_ATTR_AF : Nat := 1 <<< 10
def PTE_ATTR_SH_INNER : Nat := 3 <<< 8
def PTE_ATTR_AP_RW_EL1 : Nat := 0 <<< 6
def PTE_ATTR_AP_RW_ALL : Nat := 1 <<< 6
def PTE_ATTR_AP_RO_EL1 : Nat := 2 <<< 6
def PTE_ATTR_AP_RO_ALL : Nat := 3 <<< 6
def PTE_ATTR_UXN : Nat := 1 <<< 54
def PTE_ATTR_PXN : Nat := 1 <<< 53
def PTE_ATTR_ATTR_INDX (n : Nat) : Nat := n <<< 2

def MEMORY_ATTR_DEVICE_nGnRE : Nat := 1
def MEMORY_ATTR_NORMAL_NC : Nat := 3
def MEMORY_ATTR_NORMAL_WT : Nat := 4
def MEMORY_ATTR_NORMAL_WB : Nat := 5

def MAP_READ : Nat := 1 <<< 0
def MAP_WRITE : Nat := 1 <<< 1
def MAP_EXEC : Nat := 1 <<< 2
def MAP_DEVICE : Nat := 1 <<< 3
def MAP_CACHE_WB : Nat := 1 <<< 4
def MAP_CACHE_WT : Nat := 1 <<< 5
def MAP_CACHE_NC : Nat := 1 <<< 6
def MAP_USER : Nat := 1 <<< 7

/-- `flags_to_pte_attr` from kernel_mmu.c. -/
def flags_to_pte_attr (flags : Nat) : Nat :=
  let attr := PTE_ATTR_AF
  let attr :=
    if flags &&& MAP_DEVICE ≠ 0 then
      attr ||| PTE_ATTR_ATTR_INDX MEMORY_ATTR_DEVICE_nGnRE
    else if flags &&& MAP_CACHE_WB ≠ 0 then
      attr ||| PTE_ATTR_ATTR_INDX MEMORY_ATTR_NORMAL_WB ||| PTE_ATTR_SH_INNER
    else if flags &&& MAP_CACHE_WT ≠ 0 then
      attr ||| PTE_ATTR_ATTR_INDX MEMORY_ATTR_NORMAL_WT ||| PTE_ATTR_SH_INNER
    else if flags &&& MAP_CACHE_NC ≠ 0 then
      attr ||| PTE_ATTR_ATTR_INDX MEMORY_ATTR_NORMAL_NC ||| PTE_ATTR_SH_INNER
    else
      attr ||| PTE_ATTR_ATTR_INDX MEMORY_ATTR_NORMAL_WB ||| PTE_ATTR_SH_INNER
  let attr :=
    if flags &&& MAP_WRITE ≠ 0 then
      if flags &&& MAP_USER ≠ 0 then attr ||| PTE_ATTR_AP_RW_ALL
      else attr ||| PTE_ATTR_AP_RW_EL1
    else
      if flags &&& MAP_USER ≠ 0 then attr ||| PTE_ATTR_AP_RO_ALL
      else attr ||| PTE_ATTR_AP_RO_EL1
  if flags &&& MAP_EXEC = 0 then attr ||| PTE_ATTR_UXN ||| PTE_ATTR_PXN
  else if flags &&& MAP_USER = 0 then attr ||| PTE_ATTR_UXN
  else attr

/-- `kernel_virt_to_phys` from kernel_mmu.c: addresses below
`0x1080000000` are identity-mapped during early boot; high kernel
addresses drop `KERNEL_VIRT_BASE`; anything else is returned unchanged
(after a warning). -/
def kernel_virt_to_phys (virt : Nat) : Nat :=
  if virt < 0x1080000000 then virt
  else if KERNEL_VIRT_BASE ≤ virt then virt - KERNEL_VIRT_BASE
  else virt

/-- Modelled from the spec: `kpage_from_phys` is declared by the paging
layer but its definition is not among the provided sources; per the
spec (§4.2) physical frames are reached through "the identity-mapped
virtual view", so the physical address itself is returned. -/
def kpage_from_phys (phys : Nat) : Nat := phys

/-- The physical address a pointer dereference reaches: identical to
`kernel_virt_to_phys` on every address the kernel uses (identity below
`KERNEL_VIRT_BASE`, linear alias above it). -/
def toPhys (p : Nat) : Nat :=
  if KERNEL_VIRT_BASE ≤ p then p - KERNEL_VIRT_BASE else p

structure MMUState where
  store : Nat → Option (Nat → Nat)
  kernel_pgd : Nat

/-- Read the 64-bit entry at index `idx` of the table the pointer `ptr`
aliases.  Unallocated memory reads as 0. -/
def readEntry (st : MMUState) (ptr idx : Nat) : Nat :=
  match st.store (toPhys ptr) with
  | some t => t idx
  | none => 0

/-- Write the entry at index `idx` of the table `ptr` aliases. -/
def writeEntry (st : MMUState) (ptr idx v : Nat) : MMUState :=
  { st with
      store := fun b =>
        if b = toPhys ptr then
          some (fun j => if j = idx then v else
            match st.store (toPhys ptr) with
            | some t => t j
            | none => 0)
        else st.store b }

/-- `alloc_page_table` body after a successful kmalloc: the fresh page is
zeroed. -/
def zeroTable (st : MMUState) (ptr : Nat) : MMUState :=
  { st with
      store := fun b => if b = toPhys ptr then some (fun _ => 0) else st.store b }

def pgd_index (virt : Nat) : Nat := (virt >>> PGD_SHIFT) &&& TABLE_IDX_MASK
def pud_index (virt : Nat) : Nat := (virt >>> PUD_SHIFT) &&& TABLE_IDX_MASK
def pmd_index (virt : Nat) : Nat := (virt >>> PMD_SHIFT) &&& TABLE_IDX_MASK
def pte_index (virt : Nat) : Nat := (virt >>> PTE_SHIFT) &&& TABLE_IDX_MASK

/-- The "get or create PUD" block of `kernel_mmu_map`.  `supply` lists
the pointers successive `kmalloc(PAGE_SIZE)` calls will return; an
exhausted supply is a failing kmalloc.  Returns (status, state,
remaining supply, pud pointer).  A freshly created table is linked by
its `kernel_virt_to_phys` address (with the page-alignment check the C
performs here) and subsequently accessed through its kmalloc pointer; an
existing PUD is accessed directly through the physical address extracted
from the PGD entry. -/
def ensure_pud (st0 : MMUState) (supply0 : List Nat) (curr_virt : Nat) :
    Int × MMUState × List Nat × Nat :=
  let pgd_entry := readEntry st0 st0.kernel_pgd (pgd_index curr_virt)
  if pgd_entry &&& PTE_TYPE_TABLE = 0 then
    match supply0 with
    | [] => (-ENOMEM, st0, [], 0)
    | pud :: rest =>
      let st := zeroTable st0 pud
      let pud_phys := kernel_virt_to_phys pud
      if pud_phys &&& 0xFFF ≠ 0 then (-ENOMEM, st, rest, 0)
      else
        (EOK, writeEntry st st0.kernel_pgd (pgd_index curr_virt)
          (pud_phys ||| PTE_TYPE_TABLE), rest, pud)
  else (EOK, st0, supply0, pgd_entry &&& PTE_TABLE_ADDR_MASK)

/-- The "get or create PMD" block of `kernel_mmu_map`: as `ensure_pud`,
except that no alignment check is made and an existing PMD is accessed
through `kpage_from_phys` of the extracted address. -/
def ensure_pmd (st1 : MMUState) (supply1 : List Nat)
    (curr_virt pud_ptr : Nat) : Int × MMUState × List Nat × Nat :=
  let pud_entry := readEntry st1 pud_ptr (pud_index curr_virt)
  if pud_entry &&& PTE_TYPE_TABLE = 0 then
    match supply1 with
    | [] => (-ENOMEM, st1, [], 0)
    | pmd :: rest =>
      let st := zeroTable st1 pmd
      let pmd_phys := kernel_virt_to_phys pmd
      (EOK, writeEntry st pud_ptr (pud_index curr_virt)
        (pmd_phys ||| PTE_TYPE_TABLE), rest, pmd)
  else
    (EOK, st1, supply1, kpage_from_phys (pud_entry &&& PTE_TABLE_ADDR_MASK))

/-- The "get or create PT" block of `kernel_mmu_map`: identical in shape
to `ensure_pmd` one level down. -/
def ensure_pt (st2 : MMUState) (supply2 : List Nat)
    (curr_virt pmd_ptr : Nat) : Int × MMUState × List Nat × Nat :=
  let pmd_entry := readEntry st2 pmd_ptr (pmd_index curr_virt)
  if pmd_entry &&& PTE_TYPE_TABLE = 0 then
    match supply2 with
    | [] => (-ENOMEM, st2, [], 0)
    | pt :: rest =>
      let st := zeroTable st2 pt
      let pt_phys := kernel_virt_to_phys pt
      (EOK, writeEntry st pmd_ptr (pmd_index curr_virt)
        (pt_phys ||| PTE_TYPE_TABLE), rest, pt)
  else
    (EOK, st2, supply2, kpage_from_phys (pmd_entry &&& PTE_TABLE_ADDR_MASK))

/-- One iteration of the page loop of `kernel_mmu_map`: walk or create
the PUD, PMD and PT for `curr_virt` and install the PTE for `curr_phys`,
then invalidate the TLB entry (no effect on the table store).  The
returned triple is (status, new state, remaining supply). -/
def map_page (st0 : MMUState) (supply0 : List Nat)
    (curr_virt curr_phys pte_attr : Nat) : Int × MMUState × List Nat :=
  match ensure_pud st0 supply0 curr_virt with
  | (res1, st1, supply1, pud_ptr) =>
    if res1 < 0 then (res1, st1, supply1)
    else
      match ensure_pmd st1 supply1 curr_virt pud_ptr with
      | (res2, st2, supply2, pmd_ptr) =>
        if res2 < 0 then (res2, st2, supply2)
        else
          match ensure_pt st2 supply2 curr_virt pmd_ptr with
          | (res3, st3, supply3, pt_ptr) =>
            if res3 < 0 then (res3, st3, supply3)
            else
              (EOK,
                writeEntry st3 pt_ptr (pte_index curr_virt)
                  ((curr_phys &&& PTE_BLOCK_ADDR_MASK) ||| pte_attr |||
                    PTE_TYPE_PAGE),
                supply3)

/-- The page loop of `kernel_mmu_map`: maps page `i`, then the remaining
`n` pages; the first failing page aborts with its status, leaving the
already-installed entries in place.  The per-page addresses wrap modulo
2^64 as the `uint64_t` arithmetic does. -/
def map_loop (virt_aligned phys_aligned pte_attr : Nat) :
    MMUState → List Nat → Nat → Nat → Int × MMUState × List Nat
  | st, supply, _, 0 => (EOK, st, supply)
  | st, supply, i, n + 1 =>
    let curr_virt := (virt_aligned + i * PAGE_SIZE) % 2 ^ 64
    let curr_phys := (phys_aligned + i * PAGE_SIZE) % 2 ^ 64
    match map_page st supply curr_virt curr_phys pte_attr with
    | (res, st', supply') =>
      if res < 0 then (res, st', supply')
      else map_loop virt_aligned phys_aligned pte_attr st' supply' (i + 1) n

/-- `kernel_mmu_map` from kernel_mmu.c: aligns the addresses down and the
size up to page boundaries and maps each page in turn. -/
def kernel_mmu_map (st : MMUState) (supply : List Nat)
    (phys_addr virt_addr size flags : Nat) : Int × MMUState × List Nat :=
  let phys_aligned := phys_addr - phys_addr % PAGE_SIZE
  let virt_aligned := virt_addr - virt_addr % PAGE_SIZE
  let aligned_size := (size + (PAGE_SIZE - 1)) % 2 ^ 64 / PAGE_SIZE * PAGE_SIZE
  let pages := aligned_size / PAGE_SIZE
  let pte_attr := flags_to_pte_attr flags
  map_loop virt_aligned phys_aligned pte_attr st supply 0 pages

/-- `kernel_mmu_translate` from kernel_mmu.c: the pure 4-level walk.
Each level requires the `PTE_TYPE_TABLE` bits (the C truth test
`!(entry & PTE_TYPE_TABLE)`), the leaf requires the `PTE_TYPE_PAGE`
bits, and the next table is reached through the high linear alias
`(entry & PTE_TABLE_ADDR_MASK) + KERNEL_VIRT_BASE`.  Returns `-EFAULT`
with no address when any level fails. -/
def kernel_mmu_translate (st : MMUState) (virt_addr : Nat) : Int × Option Nat :=
  let pgd_entry := readEntry st st.kernel_pgd (pgd_index virt_addr)
  if pgd_entry &&& PTE_TYPE_TABLE = 0 then (-EFAULT, none)
  else
    let pud := (pgd_entry &&& PTE_TABLE_ADDR_MASK) + KERNEL_VIRT_BASE
    let pud_entry := readEntry st pud (pud_index virt_addr)
    if pud_entry &&& PTE_TYPE_TABLE = 0 then (-EFAULT, none)
    else
      let pmd := (pud_entry &&& PTE_TABLE_ADDR_MASK) + KERNEL_VIRT_BASE
      let pmd_entry := readEntry st pmd (pmd_index virt_addr)
      if pmd_entry &&& PTE_TYPE_TABLE = 0 then (-EFAULT, none)
      else
        let pt := (pmd_entry &&& PTE_TABLE_ADDR_MASK) + KERNEL_VIRT_BASE
        let pte := readEntry st pt (pte_index virt_addr)
        if pte &&& PTE_TYPE_PAGE = 0 then (-EFAULT, none)
        else
          (EOK, some ((pte &&& PTE_BLOCK_ADDR_MASK) |||
            (virt_addr &&& (PAGE_SIZE - 1))))

/-! ### Structural predicates on MMU states

The proofs about `kernel_mmu_map` need the usual sanity conditions a
running kernel maintains over its page tables: the PGD is an allocated
table, every `PTE_TYPE_TABLE`-tagged entry of a non-leaf table points to
an allocated table one level down, and no two table entries point to the
same child table (tables form a forest of depth 4 rooted at the PGD).
`lvl` assigns each allocated table its depth. -/

/-- The physical base of the kernel PGD. -/
def pgdB (st : MMUState) : Nat := toPhys st.kernel_pgd

/-- Whether physical address `b` is the base of an allocated table. -/
def isTable (st : MMUState) (b : Nat) : Prop := (st.store b).isSome

/-- The raw entry at index `j` of the table at physical base `b`. -/
def entryAt (st : MMUState) (b j : Nat) : Nat :=
  match st.store b with
  | some t => t j
  | none => 0

/-- The physical base the entry at `(b, j)` points to. -/
def childOf (st : MMUState) (b j : Nat) : Nat :=
  entryAt st b j &&& PTE_TABLE_ADDR_MASK

/-- Whether the entry at `(b, j)` passes the walk's
`entry & PTE_TYPE_TABLE` test. -/
def entryValid (st : MMUState) (b j : Nat) : Prop :=
  entryAt st b j &&& PTE_TYPE_TABLE ≠ 0

/-- Well-formedness of the table store, with `lvl` assigning depths. -/
structure MMUWF (st : MMUState) (lvl : Nat → Nat) : Prop where
  pgd_table : isTable st (pgdB st)
  pgd_lvl : lvl (pgdB st) = 0
  closure : ∀ b j, isTable st b → lvl b ≤ 2 → j < 512 → entryValid st b j →
    isTable st (childOf st b j) ∧ lvl (childOf st b j) = lvl b + 1
  inj : ∀ b j b' j', isTable st b → isTable st b' → lvl b ≤ 2 → lvl b' ≤ 2 →
    j < 512 → j' < 512 → entryValid st b j → entryValid st b' j' →
    childOf st b j = childOf st b' j' → b = b' ∧ j = j'

/-- What `kmalloc(PAGE_SIZE)` guarantees for the page-table allocations
of `kernel_mmu_map`: kernel-heap pointers are page-aligned (the heap
hands out whole 4 KiB blocks), identity-mapped (the heap lies below
`0x1080000000`), distinct from each other and from every allocated
table. -/
def GoodSupply (st : MMUState) (supply : List Nat) : Prop :=
  supply.Pairwise (· ≠ ·) ∧
  ∀ s ∈ supply, s % PAGE_SIZE = 0 ∧ s < 0x1080000000 ∧ ¬isTable st s

/-- The four page-table indices of a virtual address. -/
def vIdx (v : Nat) : Nat × Nat × Nat × Nat :=
  (pgd_index v, pud_index v, pmd_index v, pte_index v)

/-- The PUD base the walk for `v` reaches from the PGD. -/
def chain1 (st : MMUState) (v : Nat) : Nat :=
  childOf st (pgdB st) (pgd_index v)

/-- The PMD base the walk for `v` reaches. -/
def chain2 (st : MMUState) (v : Nat) : Nat :=
  childOf st (chain1 st v) (pud_index v)

/-- The PT base the walk for `v` reaches. -/
def chain3 (st : MMUState) (v : Nat) : Nat :=
  childOf st (chain2 st v) (pmd_index v)

/-- A generic "get or create the next-level table" step: the common
shape of `ensure_pud` (modulo its alignment check, vacuous for
kernel-heap supplies), `ensure_pmd` and `ensure_pt`.  Used only to state
and prove their shared properties. -/
def ensure_step (st : MMUState) (supply : List Nat) (parent_ptr idx : Nat) :
    Int × MMUState × List Nat × Nat :=
  let entry := readEntry st parent_ptr idx
  if entry &&& PTE_TYPE_TABLE = 0 then
    match supply with
    | [] => (-ENOMEM, st, [], 0)
    | p :: rest =>
      (EOK, writeEntry (zeroTable st p) parent_ptr idx
        (kernel_virt_to_phys p ||| PTE_TYPE_TABLE), rest, p)
  else (EOK, st, supply, entry &&& PTE_TABLE_ADDR_MASK)

/-- A concrete freshly initialised table store: a single zeroed PGD at
physical `0x40000` (the `kernel_pgd` the boot allocator hands out) and
nothing else allocated. -/
def mmuInit : MMUState :=
  ⟨fun b => if b = 0x40000 then some (fun _ => 0) else none, 0x40000⟩

/-! # Theorems -/

/-! ## C1: first-fit allocation and its failure case -/

/-- C1: the claim "heap_malloc returns the first run of enough
consecutive FREE blocks, and null if no such run exists" fails on the
code.  On a two-block heap whose first block is taken (the state reached
by `heap_create` on a two-block region followed by `heap_malloc 4096`),
a request for two blocks finds no run of two consecutive FREE blocks
anywhere, yet `heap_malloc` returns the address of block 1 instead of
null, because `heap_get_start_block` never re-checks that the run left
open at the end of the scan has the required length; the subsequent
marking even writes past the end of the block map. -/
theorem heap_malloc_returns_short_tail_run :
    heap_malloc 0 (heap_create_entries 2) 4096 =
      (some 0, [0x41, 0x00]) ∧
    heap_has_free_run [0x41, 0x00] 2 = false ∧
    (heap_malloc 0 [0x41, 0x00] 8192).1 = some 4096 := by
  decide

/-! ## C2: the IS_FIRST / HAS_NEXT marking invariant -/

/-- C2: the claim "after any sequence of heap operations, HAS_NEXT is set
on every block of a multi-block allocation except the last" fails on the
code.  After `heap_create` on a four-block region and one `heap_malloc`
of two blocks, the allocation occupies blocks 0 and 1, but the final
entry written for its last block is `TAKEN|HAS_NEXT` (0x81): the marking
loop tests `i != end_block` when preparing the entry of block `i + 1`,
so the last block also receives `HAS_NEXT`.  Consequently a
`heap_free` of this allocation runs past its end: with a second two-block
allocation adjacent at block 2, freeing the first allocation frees all
four blocks. -/
theorem heap_mark_blocks_taken_sets_has_next_on_last :
    heap_malloc 0 (heap_create_entries 4) 8192 =
      (some 0, [0xC1, 0x81, 0x00, 0x00]) ∧
    heap_alloc_well_marked [0xC1, 0x81, 0x00, 0x00] 0 2 = false ∧
    ([0xC1, 0x81, 0x00, 0x00].getD 1 0 &&& HEAP_BLOCK_HAS_NEXT ≠ 0) ∧
    heap_free 0 [0xC1, 0x81, 0xC1, 0x81] 0 = [0, 0, 0, 0] := by
  decide

/-! ## C3: boot-info magic verification -/

/-- C3, counterexample: with `magic = 0` (and the claim's
`ram_size = 0x10000000`) the kernel does NOT stop after the warning: the
very trace contains the warning followed by the memory-system
initialization and every later initialization step, ending in the
process-management start.  The claimed behaviour — the trace stops at
the warning — is false. -/
theorem kernel_main_bad_magic_proceeds_cex :
    kernel_main ⟨0, 0, 0x10000000, 0⟩ ⟨0, 0, 0, 0, 0⟩ =
      [KernelEvent.started, KernelEvent.bootWarning,
       KernelEvent.memSystemInit 0x10000000, KernelEvent.memTests,
       KernelEvent.procMgmtInit, KernelEvent.createKernelProcess,
       KernelEvent.createUserProcess, KernelEvent.procMgmtStart,
       KernelEvent.unexpectedReturn, KernelEvent.halt] ∧
    kernel_main ⟨0, 0, 0x10000000, 0⟩ ⟨0, 0, 0, 0, 0⟩ ≠
      [KernelEvent.started, KernelEvent.bootWarning, KernelEvent.halt] := by
  decide

/-- C3, amended: on a magic mismatch the kernel emits the warning but
continues initialization regardless, passing the unvalidated record's
`ram_size` to the memory system; it does not halt at the diagnostic
stage (it halts later only if some initialization step itself fails). -/
theorem kernel_main_bad_magic_warns_and_continues (b : boot_info_t)
    (env : KernelEnv) (hmagic : b.magic ≠ BOOT_INFO_MAGIC) :
    (kernel_main b env).take 3 =
      [KernelEvent.started, KernelEvent.bootWarning,
       KernelEvent.memSystemInit b.ram_size] := by
  unfold kernel_main
  rw [if_neg hmagic]
  simp

/-- Witness for `kernel_main_bad_magic_warns_and_continues` at
`magic = 0`, `ram_size = 0x10000000`. -/
theorem kernel_main_bad_magic_warns_and_continues_witness :
    (kernel_main ⟨0, 0, 0x10000000, 0⟩ ⟨0, 0, 0, 0, 0⟩).take 3 =
      [KernelEvent.started, KernelEvent.bootWarning,
       KernelEvent.memSystemInit 0x10000000] :=
  kernel_main_bad_magic_warns_and_continues ⟨0, 0, 0x10000000, 0⟩
    ⟨0, 0, 0, 0, 0⟩ (by decide)

/-! ## C4: scheduler fairness -/

/-- C4: the claim "with N ready tasks of equal priority, every ready
task is selected at least once in any window of N ticks" fails on the
code.  In the steady state with two processes whose main tasks are both
runnable (pid 0 RUNNING as the current task, pid 1 READY), the tick
handler is a fixpoint: it demotes task 0 to READY and then
`task_schedule_next_process`, which always scans from pid 0 with no
rotation, selects pid 0 again.  Over a window of any length n — in
particular n ≥ 2 — the selection trace is all zeros and pid 1 is never
selected and never runs. -/
theorem scheduler_tick_starves_higher_pids :
    scheduler_timer_handler
      ⟨some TASK_STATE_RUNNING :: some TASK_STATE_READY ::
        List.replicate 62 none, 0, some 0, true⟩ =
      (⟨some TASK_STATE_RUNNING :: some TASK_STATE_READY ::
        List.replicate 62 none, 0, some 0, true⟩, EOK) ∧
    ∀ n : Nat,
      scheduler_ticks
        ⟨some TASK_STATE_RUNNING :: some TASK_STATE_READY ::
          List.replicate 62 none, 0, some 0, true⟩ n =
        (List.replicate n 0,
          ⟨some TASK_STATE_RUNNING :: some TASK_STATE_READY ::
            List.replicate 62 none, 0, some 0, true⟩) := by
  have hstep : ∀ k : Nat,
      scheduler_ticks
        ⟨some TASK_STATE_RUNNING :: some TASK_STATE_READY ::
          List.replicate 62 none, 0, some 0, true⟩ (k + 1) =
        (0 :: (scheduler_ticks
          ⟨some TASK_STATE_RUNNING :: some TASK_STATE_READY ::
            List.replicate 62 none, 0, some 0, true⟩ k).1,
          (scheduler_ticks
            ⟨some TASK_STATE_RUNNING :: some TASK_STATE_READY ::
              List.replicate 62 none, 0, some 0, true⟩ k).2) := fun _ => rfl
  refine ⟨by decide, ?_⟩
  intro n
  induction n with
  | zero => rfl
  | succ k ih => rw [hstep k, ih]; rfl

/-! ## C6: column-major strides -/

/-- C6, counterexample: a 2×3 row-major tensor switched to
`COLUMN_MAJOR` by `ai_tensor_set_layout` receives strides `[3, 1]` — the
row-major strides — not the `[1, 2]` the column-major recurrence
`s[0] = 1, s[i] = s[i-1] * shape[i-1]` demands: `calculate_strides`
never reads the layout tag. -/
theorem set_layout_column_major_row_major_strides_cex :
    (ai_tensor_set_layout ⟨2, [2, 3], some [3, 1], .ROW_MAJOR⟩
      .COLUMN_MAJOR).1 =
      ⟨2, [2, 3], some [3, 1], .COLUMN_MAJOR⟩ ∧
    column_major_law ⟨2, [2, 3], some [3, 1], .COLUMN_MAJOR⟩ = false := by
  decide

/-- The stride loop never changes the list length. -/
theorem calc_strides_loop_length (shape : List Nat) (s : List Nat) (n : Nat) :
    (calc_strides_loop shape s n).length = s.length := by
  induction n generalizing s with
  | zero => rfl
  | succ k ih => rw [calc_strides_loop, ih]; simp

/-- The stride loop with argument `n` writes only indices below `n`. -/
theorem calc_strides_loop_getD_ge (shape : List Nat) (s : List Nat) (n j : Nat)
    (hj : n ≤ j) :
    (calc_strides_loop shape s n).getD j 0 = s.getD j 0 := by
  induction n generalizing s with
  | zero => rfl
  | succ k ih =>
    rw [calc_strides_loop, ih _ (by omega)]
    simp [List.getD_eq_getElem?_getD, List.getElem?_set_ne (by omega : k ≠ j)]

/-- Below `n` the stride loop establishes the row-major recurrence
`s[j] = s[j+1] * shape[j+1]`. -/
theorem calc_strides_loop_recurrence (shape : List Nat) (s : List Nat)
    (n : Nat) (hn : n ≤ s.length) (j : Nat) (hj : j < n) :
    (calc_strides_loop shape s n).getD j 0 =
      (calc_strides_loop shape s n).getD (j + 1) 0 * shape.getD (j + 1) 0 := by
  induction n generalizing s with
  | zero => omega
  | succ k ih =>
    rw [calc_strides_loop]
    rcases Nat.lt_or_ge j k with hjk | hjk
    · exact ih _ (by simpa using Nat.le_of_succ_le hn) hjk
    · have hjeq : j = k := by omega
      subst hjeq
      rw [calc_strides_loop_getD_ge shape _ j (j + 1) (Nat.le_succ j),
        calc_strides_loop_getD_ge shape _ j j (Nat.le_refl j)]
      have hjlen : j < s.length := by omega
      simp [List.getD_eq_getElem?_getD, List.getElem?_set_self hjlen,
        List.getElem?_set_ne (by omega : j ≠ j + 1), hjlen]

/-- `calculate_strides` computes the row-major recurrence in every
branch, whatever the layout tag of the tensor. -/
theorem calculate_strides_row_major_rule (ndim : Nat) (shape : List Nat)
    (strides0 : Option (List Nat)) (layout : tensor_layout_t)
    (hdim : ndim = shape.length) (hpos : 0 < ndim) :
    ∃ s : List Nat,
      (calculate_strides ⟨ndim, shape, strides0, layout⟩).strides = some s ∧
      s.getD (ndim - 1) 0 = 1 ∧
      ∀ i : Nat, i + 1 < ndim →
        s.getD i 0 = s.getD (i + 1) 0 * shape.getD (i + 1) 0 := by
  have hshape : shape ≠ [] := by
    intro h
    rw [h] at hdim
    simp at hdim
    omega
  rcases Nat.lt_or_ge ndim 3 with h3 | h3
  · interval_cases ndim
    · rw [calculate_strides]
      rw [if_neg (by simp [hshape]), if_pos (by simp)]
      exact ⟨[1], rfl, by simp, by omega⟩
    · rw [calculate_strides]
      rw [if_neg (by simp [hshape]), if_neg (by simp), if_pos (by simp)]
      refine ⟨[shape.getD 1 0, 1], rfl, by simp, ?_⟩
      intro i hi
      have hi0 : i = 0 := by omega
      subst hi0
      simp
  · rw [calculate_strides]
    rw [if_neg (by simp [hshape]; omega), if_neg (by simp; omega),
      if_neg (by simp; omega)]
    dsimp only
    refine ⟨_, rfl, ?_, ?_⟩
    · rw [calc_strides_loop_getD_ge _ _ _ _ (Nat.le_refl _)]
      have hlt : ndim - 1 < (List.replicate ndim (0 : Nat)).length := by
        simp; omega
      simp [List.getD_eq_getElem?_getD, List.getElem?_set_self hlt]
    · intro i hi
      exact calc_strides_loop_recurrence _ _ _ (by simp) _ (by omega)

/-- C6, amended: changing a tensor's layout to `COLUMN_MAJOR` recomputes
its strides with the ROW-major recurrence — `s[ndim-1] = 1` and
`s[i] = s[i+1] * shape[i+1]` — because `calculate_strides` ignores the
layout tag entirely; the column-major recurrence claimed by the spec
holds only where it coincides with the row-major one. -/
theorem set_layout_column_major_strides_follow_row_major_rule (t : tensor_t)
    (hdim : t.ndim = t.shape.length) (hpos : 0 < t.ndim)
    (hlay : t.layout ≠ tensor_layout_t.COLUMN_MAJOR) :
    ∃ s : List Nat,
      (ai_tensor_set_layout t tensor_layout_t.COLUMN_MAJOR).1.strides = some s ∧
      s.getD (t.ndim - 1) 0 = 1 ∧
      ∀ i : Nat, i + 1 < t.ndim →
        s.getD i 0 = s.getD (i + 1) 0 * t.shape.getD (i + 1) 0 := by
  rw [ai_tensor_set_layout, if_neg hlay]
  have h := calculate_strides_row_major_rule t.ndim t.shape t.strides
    tensor_layout_t.COLUMN_MAJOR hdim hpos
  exact h

/-- Witness for `set_layout_column_major_strides_follow_row_major_rule`
on a 3-dimensional tensor of shape 2×3×4. -/
theorem set_layout_column_major_strides_follow_row_major_rule_witness :
    ∃ s : List Nat,
      (ai_tensor_set_layout ⟨3, [2, 3, 4], none, tensor_layout_t.ROW_MAJOR⟩
        tensor_layout_t.COLUMN_MAJOR).1.strides = some s ∧
      s.getD (3 - 1) 0 = 1 ∧
      ∀ i : Nat, i + 1 < 3 →
        s.getD i 0 = s.getD (i + 1) 0 * ([2, 3, 4] : List Nat).getD (i + 1) 0 :=
  set_layout_column_major_strides_follow_row_major_rule
    ⟨3, [2, 3, 4], none, tensor_layout_t.ROW_MAJOR⟩ (by decide) (by decide)
    (by decide)

/-! ## C7: syscall dispatch totality -/

/-- C7: for every syscall number in `[0, SYSCALL_MAX)` whose slot holds a
registered handler, `syscall_handler` returns exactly that handler's
return value; for every other number — negative, at least `SYSCALL_MAX`,
or an empty slot — it returns `-EINVSYSCALL`. -/
theorem syscall_handler_totality (table : List (Option SyscallFn))
    (n a1 a2 a3 a4 : Int) :
    (∀ h : SyscallFn, 0 ≤ n → n < (SYSCALL_MAX : Int) →
      table.getD n.toNat none = some h →
      syscall_handler table n a1 a2 a3 a4 = h a1 a2 a3 a4) ∧
    ((n < 0 ∨ (SYSCALL_MAX : Int) ≤ n ∨ table.getD n.toNat none = none) →
      syscall_handler table n a1 a2 a3 a4 = -EINVSYSCALL) := by
  constructor
  · intro h h0 hlt heq
    rw [syscall_handler, if_neg (by omega), heq]
  · intro hcase
    rcases hcase with hneg | hge | hnone
    · rw [syscall_handler, if_pos (Or.inl hneg)]
    · rw [syscall_handler, if_pos (Or.inr hge)]
    · by_cases hrange : n < 0 ∨ (SYSCALL_MAX : Int) ≤ n
      · rw [syscall_handler, if_pos hrange]
      · rw [syscall_handler, if_neg hrange, hnone]

/-- Witness for `syscall_handler_totality`: a one-entry table whose slot
0 handler adds one to its first argument; number 0 dispatches to it and
number 7 is rejected. -/
theorem syscall_handler_totality_witness :
    syscall_handler [some (fun a _ _ _ => a + 1)] 0 4 0 0 0 = 5 ∧
    syscall_handler [some (fun a _ _ _ => a + 1)] 7 4 0 0 0 = -EINVSYSCALL :=
  ⟨(syscall_handler_totality [some (fun a _ _ _ => a + 1)] 0 4 0 0 0).1
      (fun a _ _ _ => a + 1) (by norm_num) (by norm_num [SYSCALL_MAX]) rfl,
    (syscall_handler_totality [some (fun a _ _ _ => a + 1)] 7 4 0 0 0).2
      (Or.inr (Or.inl (by norm_num [SYSCALL_MAX])))⟩

/-! ## C8: spurious interrupt ids -/

/-- C8: whenever the value read from `GICC_IAR` has its low 10 bits at or
above 1020, `irq_handler` returns EOK immediately: no registered handler
is invoked and nothing is written to `GICC_EOIR`. -/
theorem irq_handler_spurious_no_effect (handlers : List (Option Int))
    (iar : Nat) (hspurious : 1020 ≤ iar &&& 0x3FF) :
    irq_handler true handlers iar = ⟨EOK, [], []⟩ := by
  rw [irq_handler, if_neg (by simp)]
  simp only [if_pos hspurious]

/-- Witness for `irq_handler_spurious_no_effect` at `iar = 1023` with a
handler registered in slot 30. -/
theorem irq_handler_spurious_no_effect_witness :
    irq_handler true (List.replicate 30 none ++ [some 7]) 1023 =
      ⟨EOK, [], []⟩ :=
  irq_handler_spurious_no_effect (List.replicate 30 none ++ [some 7]) 1023
    (by decide)

/-! ## C9: task_new priority handling -/

/-- C9: `task_new TASK_PRIORITY_LOW` succeeds but produces a task whose
priority is `TASK_PRIORITY_NORMAL` (LOW is 0 and a zero argument is
treated as absent); NORMAL and HIGH are stored as given; every other
priority value is rejected with NULL. -/
theorem task_new_priority_semantics (next_id : Nat) :
    task_new TASK_PRIORITY_LOW true next_id =
      some ⟨next_id, TASK_STATE_NEW, TASK_PRIORITY_NORMAL⟩ ∧
    task_new TASK_PRIORITY_NORMAL true next_id =
      some ⟨next_id, TASK_STATE_NEW, TASK_PRIORITY_NORMAL⟩ ∧
    task_new TASK_PRIORITY_HIGH true next_id =
      some ⟨next_id, TASK_STATE_NEW, TASK_PRIORITY_HIGH⟩ ∧
    ∀ p : Nat, p ≠ TASK_PRIORITY_LOW → p ≠ TASK_PRIORITY_NORMAL →
      p ≠ TASK_PRIORITY_HIGH → ∀ ok : Bool, ∀ m : Nat,
        task_new p ok m = none := by
  refine ⟨rfl, rfl, rfl, ?_⟩
  intro p h0 h1 h2 ok m
  rw [task_new, if_pos ⟨h2, h0, h1⟩]

/-- Witness for `task_new_priority_semantics` at id 5, rejected
priority 7. -/
theorem task_new_priority_semantics_witness :
    task_new TASK_PRIORITY_LOW true 5 =
      some ⟨5, TASK_STATE_NEW, TASK_PRIORITY_NORMAL⟩ ∧
    task_new 7 true 5 = none :=
  ⟨(task_new_priority_semantics 5).1,
    (task_new_priority_semantics 5).2.2.2 7 (by decide) (by decide) (by decide)
      true 5⟩

/-! ## C10: the PROCESS_MALLOC return value -/

/-- C10, counterexample: the claim "the value delivered in x0 equals the
kernel heap address only when that address fits in 32 bits" is false in
both directions.  The dispatch table's `int` return value is stored into
the frame's 64-bit `x0` sign-extended, so the address
`0xFFFFFFFFFFFFF000` — which does not fit in 32 bits — is reproduced
exactly, while the 32-bit address `0x80000000` is not. -/
theorem process_malloc_x0_32bit_cex :
    (process_malloc_x0 0xFFFFFFFFFFFFF000 = 0xFFFFFFFFFFFFF000 ∧
      ¬(0xFFFFFFFFFFFFF000 < 2 ^ 32)) ∧
    (process_malloc_x0 0x80000000 ≠ 0x80000000 ∧ 0x80000000 < 2 ^ 32) := by
  decide

/-- Normal form of the delivered `x0` value: the low 32 bits of the
address, plus `2^64 - 2^32` when bit 31 is set (the sign extension). -/
theorem process_malloc_x0_eq (ptr : Nat) :
    process_malloc_x0 ptr =
      if ptr % 2 ^ 32 < 2 ^ 31 then ptr % 2 ^ 32
      else ptr % 2 ^ 32 + (2 ^ 64 - 2 ^ 32) := by
  rw [process_malloc_x0, syscall_process_malloc, if_neg (by norm_num),
    int_of_uint64, svc_result_to_x0]
  by_cases h : ptr % 2 ^ 32 < 2 ^ 31
  · rw [if_pos h, if_pos h]
    omega
  · rw [if_neg h, if_neg h]
    omega

/-- C10, amended: the `PROCESS_MALLOC` handler returns the allocated
pointer truncated to the 32-bit `int` return type of the dispatch table
(the low 32 bits of the address, as a signed int), and the SVC return
path stores that int sign-extended into `x0`; hence the low 32 bits of
the delivered value always agree with the address, but the delivered
value equals the address exactly when the address is below `2^31` or at
least `2^64 - 2^31` — not for all 32-bit addresses.  On failure
(`process_malloc` returned null), with no current process, or a
non-positive size, the handler returns 0. -/
theorem process_malloc_x0_sign_extension (ptr : Nat) (hp : ptr < 2 ^ 64) :
    syscall_process_malloc true 64 ptr = int_of_uint64 ptr ∧
    process_malloc_x0 ptr % 2 ^ 32 = ptr % 2 ^ 32 ∧
    (process_malloc_x0 ptr = ptr ↔ (ptr < 2 ^ 31 ∨ 2 ^ 64 - 2 ^ 31 ≤ ptr)) ∧
    syscall_process_malloc true 64 0 = 0 ∧
    (∀ size : Int, size ≤ 0 → syscall_process_malloc true size ptr = 0) ∧
    (∀ size : Int, syscall_process_malloc false size ptr = 0) := by
  refine ⟨rfl, ?_, ?_, by decide, ?_, ?_⟩
  · rw [process_malloc_x0_eq]
    by_cases h : ptr % 2 ^ 32 < 2 ^ 31
    · rw [if_pos h]; omega
    · rw [if_neg h]; omega
  · rw [process_malloc_x0_eq]
    by_cases h : ptr % 2 ^ 32 < 2 ^ 31
    · rw [if_pos h]; omega
    · rw [if_neg h]; omega
  · intro size hs
    rw [syscall_process_malloc, if_pos (Or.inr hs)]
  · intro size
    rw [syscall_process_malloc, if_pos (Or.inl (by simp))]

/-! ## C5: map / translate round trip — helper lemmas -/

theorem and_511_eq_mod (x : Nat) : x &&& 511 = x % 512 := by
  have h := Nat.and_pow_two_sub_one_eq_mod x 9
  norm_num at h
  exact h

theorem and_4095_eq_mod (x : Nat) : x &&& 4095 = x % 4096 := by
  have h := Nat.and_pow_two_sub_one_eq_mod x 12
  norm_num at h
  exact h

theorem pgd_index_lt (v : Nat) : pgd_index v < 512 := by
  rw [pgd_index, TABLE_IDX_MASK]
  norm_num [and_511_eq_mod]
  omega

theorem pud_index_lt (v : Nat) : pud_index v < 512 := by
  rw [pud_index, TABLE_IDX_MASK]
  norm_num [and_511_eq_mod]
  omega

theorem pmd_index_lt (v : Nat) : pmd_index v < 512 := by
  rw [pmd_index, TABLE_IDX_MASK]
  norm_num [and_511_eq_mod]
  omega

theorem pte_index_lt (v : Nat) : pte_index v < 512 := by
  rw [pte_index, TABLE_IDX_MASK]
  norm_num [and_511_eq_mod]
  omega

theorem lor_land_distrib (a b m : Nat) :
    (a ||| b) &&& m = (a &&& m) ||| (b &&& m) := by
  apply Nat.eq_of_testBit_eq
  intro i
  simp [Nat.testBit_land, Nat.testBit_lor, Bool.and_or_distrib_right]

/-- A page-aligned physical address below `2^48` passes through the
table-address mask unchanged. -/
theorem land_addr_mask_self (a : Nat) (h4 : a % 4096 = 0) (h48 : a < 2 ^ 48) :
    a &&& PTE_TABLE_ADDR_MASK = a := by
  have hmask : (PTE_TABLE_ADDR_MASK : Nat) = (2 ^ 36 - 1) <<< 12 := by decide
  have hmod : a % 2 ^ 12 = 0 := by omega
  apply Nat.eq_of_testBit_eq
  intro i
  rw [Nat.testBit_land, hmask, Nat.testBit_shiftLeft,
    Nat.testBit_two_pow_sub_one]
  rcases Nat.lt_or_ge i 12 with hi | hi
  · have hlow : a.testBit i = false := by
      have h1 := Nat.testBit_mod_two_pow a 12 i
      rw [hmod] at h1
      simp [hi, Nat.zero_testBit] at h1
      exact h1
    simp [hlow]
  · rcases Nat.lt_or_ge i 48 with hi48 | hi48
    · have : 12 ≤ i ∧ i - 12 < 36 := ⟨hi, by omega⟩
      simp [this.1, this.2]
    · have hhigh : a.testBit i = false := by
        apply Nat.testBit_lt_two_pow
        calc a < 2 ^ 48 := h48
          _ ≤ 2 ^ i := Nat.pow_le_pow_right (by norm_num) hi48
      simp [hhigh]

theorem land_mask_lt_2pow48 (x : Nat) : x &&& PTE_TABLE_ADDR_MASK < 2 ^ 48 := by
  have h : x &&& PTE_TABLE_ADDR_MASK ≤ PTE_TABLE_ADDR_MASK := Nat.and_le_right
  rw [PTE_TABLE_ADDR_MASK] at h ⊢
  omega

theorem land_mask_idem (x : Nat) :
    (x &&& PTE_TABLE_ADDR_MASK) &&& PTE_TABLE_ADDR_MASK =
      x &&& PTE_TABLE_ADDR_MASK := by
  apply Nat.eq_of_testBit_eq
  intro i
  simp only [Nat.testBit_land]
  cases x.testBit i <;> cases (PTE_TABLE_ADDR_MASK : Nat).testBit i <;> rfl

/-- The type bits survive no masking: an entry built with `||| 3` always
passes the walk's validity test. -/
theorem lor_three_valid (y : Nat) : (y ||| 3) &&& 3 ≠ 0 := by
  intro h
  have := congrArg (fun z => z.testBit 0) h
  simp [Nat.testBit_land, Nat.testBit_lor] at this

theorem three_land_mask : (3 : Nat) &&& PTE_TABLE_ADDR_MASK = 0 := by decide

/-- Extracting the table address from a freshly written table entry
recovers the linked base. -/
theorem table_entry_extract (p : Nat) (h4 : p % 4096 = 0) (h48 : p < 2 ^ 48) :
    (p ||| 3) &&& PTE_TABLE_ADDR_MASK = p := by
  rw [lor_land_distrib, three_land_mask, Nat.or_zero, land_addr_mask_self p h4 h48]

set_option maxHeartbeats 2000000 in
/-- The attributes produced by `flags_to_pte_attr` occupy no bit of the
address field. -/
theorem flags_to_pte_attr_mask_free (flags : Nat) :
    flags_to_pte_attr flags &&& PTE_TABLE_ADDR_MASK = 0 := by
  simp only [flags_to_pte_attr]
  split_ifs <;> decide

/-- Extracting the physical address from an installed PTE recovers the
masked physical page. -/
theorem pte_extract (p attr : Nat) (hattr : attr &&& PTE_TABLE_ADDR_MASK = 0) :
    ((p &&& PTE_BLOCK_ADDR_MASK) ||| attr ||| PTE_TYPE_PAGE) &&&
      PTE_BLOCK_ADDR_MASK = p &&& PTE_BLOCK_ADDR_MASK := by
  have hbm : (PTE_BLOCK_ADDR_MASK : Nat) = PTE_TABLE_ADDR_MASK := rfl
  have h3 : (PTE_TYPE_PAGE : Nat) = 3 := rfl
  rw [hbm, h3, lor_land_distrib, lor_land_distrib, three_land_mask, hattr,
    Nat.or_zero, Nat.or_zero, land_mask_idem]

theorem toPhys_low (p : Nat) (h : p < KERNEL_VIRT_BASE) : toPhys p = p := by
  rw [toPhys, if_neg (by omega)]

theorem toPhys_high (x : Nat) : toPhys (x + KERNEL_VIRT_BASE) = x := by
  rw [toPhys, if_pos (Nat.le_add_left _ _)]
  omega

theorem mask_lt_kvb (x : Nat) :
    x &&& PTE_TABLE_ADDR_MASK < KERNEL_VIRT_BASE := by
  have h := land_mask_lt_2pow48 x
  rw [KERNEL_VIRT_BASE]
  rw [show (2 ^ 48 : Nat) = 281474976710656 by norm_num] at h
  omega

/-! ### State-update laws -/

theorem readEntry_eq (st : MMUState) (p i : Nat) :
    readEntry st p i = entryAt st (toPhys p) i := rfl

theorem writeEntry_pgd (st : MMUState) (p j v : Nat) :
    (writeEntry st p j v).kernel_pgd = st.kernel_pgd := rfl

theorem zeroTable_pgd (st : MMUState) (p : Nat) :
    (zeroTable st p).kernel_pgd = st.kernel_pgd := rfl

theorem entryAt_write (st : MMUState) (p j v b k : Nat) :
    entryAt (writeEntry st p j v) b k =
      if b = toPhys p ∧ k = j then v else entryAt st b k := by
  unfold entryAt writeEntry
  by_cases hb : b = toPhys p
  · subst hb
    simp only [if_pos rfl, true_and]
    by_cases hk : k = j
    · simp [hk]
    · simp [hk]
  · simp only [if_neg hb, if_neg (fun h : _ ∧ _ => hb h.1)]

theorem entryAt_zero (st : MMUState) (p b k : Nat) :
    entryAt (zeroTable st p) b k = if b = toPhys p then 0 else entryAt st b k := by
  unfold entryAt zeroTable
  by_cases hb : b = toPhys p
  · simp [hb]
  · simp only [if_neg hb]

theorem isTable_write (st : MMUState) (p j v b : Nat) :
    isTable (writeEntry st p j v) b ↔ b = toPhys p ∨ isTable st b := by
  unfold isTable writeEntry
  by_cases hb : b = toPhys p
  · simp [hb]
  · simp [hb]

theorem isTable_zero (st : MMUState) (p b : Nat) :
    isTable (zeroTable st p) b ↔ b = toPhys p ∨ isTable st b := by
  unfold isTable zeroTable
  by_cases hb : b = toPhys p
  · simp [hb]
  · simp [hb]

/-- The page-table walk of `kernel_mmu_translate`, written over the
physical chain the entries denote: each level's pointer arithmetic
(`(entry & PTE_TABLE_ADDR_MASK) + KERNEL_VIRT_BASE`, resolved back
through `toPhys`) lands on the child table's physical base. -/
theorem kernel_mmu_translate_eq (st : MMUState) (v : Nat) :
    kernel_mmu_translate st v =
      if entryAt st (pgdB st) (pgd_index v) &&& PTE_TYPE_TABLE = 0 then
        (-EFAULT, none)
      else if entryAt st (chain1 st v) (pud_index v) &&& PTE_TYPE_TABLE = 0 then
        (-EFAULT, none)
      else if entryAt st (chain2 st v) (pmd_index v) &&& PTE_TYPE_TABLE = 0 then
        (-EFAULT, none)
      else if entryAt st (chain3 st v) (pte_index v) &&& PTE_TYPE_PAGE = 0 then
        (-EFAULT, none)
      else
        (EOK, some ((entryAt st (chain3 st v) (pte_index v) &&&
          PTE_BLOCK_ADDR_MASK) ||| (v &&& (PAGE_SIZE - 1)))) := by
  unfold kernel_mmu_translate
  simp only [readEntry_eq, toPhys_high]
  rfl

/-- `ensure_pmd` is literally the generic step (`kpage_from_phys` is the
identity view). -/
theorem ensure_pmd_eq (st : MMUState) (supply : List Nat) (v ptr : Nat) :
    ensure_pmd st supply v ptr = ensure_step st supply ptr (pud_index v) := rfl

/-- `ensure_pt` is literally the generic step one level down. -/
theorem ensure_pt_eq (st : MMUState) (supply : List Nat) (v ptr : Nat) :
    ensure_pt st supply v ptr = ensure_step st supply ptr (pmd_index v) := rfl

/-- For kernel-heap supplies the PUD alignment check never fires, so
`ensure_pud` is also the generic step. -/
theorem ensure_pud_eq (st : MMUState) (supply : List Nat) (v : Nat)
    (hsup : GoodSupply st supply) :
    ensure_pud st supply v = ensure_step st supply st.kernel_pgd (pgd_index v) := by
  unfold ensure_pud ensure_step
  by_cases h : readEntry st st.kernel_pgd (pgd_index v) &&& PTE_TYPE_TABLE = 0
  · rw [if_pos h, if_pos h]
    cases supply with
    | nil => rfl
    | cons p rest =>
      have hp := hsup.2 p (List.mem_cons_self p rest)
      have hkv : kernel_virt_to_phys p = p := by
        rw [kernel_virt_to_phys, if_pos hp.2.1]
      have hal : kernel_virt_to_phys p &&& 0xFFF = 0 := by
        rw [hkv]
        have h4095 := and_4095_eq_mod p
        norm_num at h4095 ⊢
        rw [h4095]
        exact hp.1
      dsimp only
      rw [if_neg (by rw [hal]; simp)]
  · rw [if_neg h, if_neg h]

/-- Everything one walk-or-create step guarantees: well-formedness and
supply discipline are preserved (with depths extended to the possibly
fresh table), already-valid entries are untouched, the parent slot now
links the returned table one level deeper. -/
theorem ensure_step_ok (st : MMUState) (lvl : Nat → Nat) (supply : List Nat)
    (parent idx : Nat)
    (hwf : MMUWF st lvl) (hsup : GoodSupply st supply)
    (hpt : isTable st (toPhys parent))
    (hplvl : lvl (toPhys parent) ≤ 2)
    (hidx : idx < 512)
    (hres : ¬((ensure_step st supply parent idx).1 < 0)) :
    ∃ lvl' : Nat → Nat,
      MMUWF (ensure_step st supply parent idx).2.1 lvl' ∧
      (∀ b, isTable st b → lvl' b = lvl b) ∧
      GoodSupply (ensure_step st supply parent idx).2.1
        (ensure_step st supply parent idx).2.2.1 ∧
      (∀ b, isTable (ensure_step st supply parent idx).2.1 b →
        isTable st b ∨ b ∈ supply) ∧
      (∀ b, isTable st b → isTable (ensure_step st supply parent idx).2.1 b) ∧
      (∀ b j, isTable st b → entryValid st b j →
        entryAt (ensure_step st supply parent idx).2.1 b j = entryAt st b j) ∧
      (ensure_step st supply parent idx).2.1.kernel_pgd = st.kernel_pgd ∧
      entryValid (ensure_step st supply parent idx).2.1 (toPhys parent) idx ∧
      childOf (ensure_step st supply parent idx).2.1 (toPhys parent) idx =
        toPhys (ensure_step st supply parent idx).2.2.2 ∧
      isTable (ensure_step st supply parent idx).2.1
        (toPhys (ensure_step st supply parent idx).2.2.2) ∧
      lvl' (toPhys (ensure_step st supply parent idx).2.2.2) =
        lvl (toPhys parent) + 1 := by
  by_cases hvalid : readEntry st parent idx &&& PTE_TYPE_TABLE = 0
  · cases supply with
    | nil =>
      exfalso
      apply hres
      simp only [ensure_step, if_pos hvalid]
      norm_num [ENOMEM]
    | cons p rest =>
      have hr : ensure_step st (p :: rest) parent idx =
          (EOK, writeEntry (zeroTable st p) parent idx
            (kernel_virt_to_phys p ||| PTE_TYPE_TABLE), rest, p) := by
        simp only [ensure_step, if_pos hvalid]
      rw [hr]
      have hp := hsup.2 p (List.mem_cons_self p rest)
      have hkv : kernel_virt_to_phys p = p := by
        rw [kernel_virt_to_phys, if_pos hp.2.1]
      have hpl : p < KERNEL_VIRT_BASE := by
        have h1 := hp.2.1
        rw [KERNEL_VIRT_BASE]
        omega
      have htp : toPhys p = p := toPhys_low p hpl
      have hp48 : p < 2 ^ 48 := by
        have h1 := hp.2.1
        norm_num
        omega
      have hp4 : p % 4096 = 0 := hp.1
      have hpext : (p ||| PTE_TYPE_TABLE) &&& PTE_TABLE_ADDR_MASK = p :=
        table_entry_extract p hp4 hp48
      have hppar : toPhys parent ≠ p := fun h => hp.2.2 (h ▸ hpt)
      have hE : ∀ b k, entryAt (writeEntry (zeroTable st p) parent idx
          (kernel_virt_to_phys p ||| PTE_TYPE_TABLE)) b k =
          if b = toPhys parent ∧ k = idx then (p ||| PTE_TYPE_TABLE)
          else if b = p then 0 else entryAt st b k := by
        intro b k
        rw [entryAt_write, entryAt_zero, htp, hkv]
      have hT : ∀ b, isTable (writeEntry (zeroTable st p) parent idx
          (kernel_virt_to_phys p ||| PTE_TYPE_TABLE)) b ↔
          b = p ∨ isTable st b := by
        intro b
        rw [isTable_write, isTable_zero, htp]
        constructor
        · rintro (rfl | h)
          · right
            exact hpt
          · exact h
        · exact Or.inr
      have hvalid' : ¬entryValid st (toPhys parent) idx := by
        rw [entryValid]
        simpa using hvalid
      refine ⟨fun b => if b = p then lvl (toPhys parent) + 1 else lvl b,
        ?_, ?_, ?_, ?_, ?_, ?_, rfl, ?_, ?_, ?_, ?_⟩
      · -- well-formedness of the new state
        have hpgdB : pgdB (writeEntry (zeroTable st p) parent idx
            (kernel_virt_to_phys p ||| PTE_TYPE_TABLE)) = pgdB st := rfl
        refine ⟨?_, ?_, ?_, ?_⟩
        · rw [hpgdB, hT]
          exact Or.inr hwf.pgd_table
        · rw [hpgdB]
          have hne : pgdB st ≠ p := fun h => hp.2.2 (h ▸ hwf.pgd_table)
          rw [if_neg hne, hwf.pgd_lvl]
        · -- closure
          intro b j hb hlb hj hv
          rw [hT] at hb
          rcases hb with rfl | hb
          · exfalso
            rw [entryValid, hE, if_neg (fun h => hppar h.1.symm),
              if_pos rfl] at hv
            simp at hv
          · have hbp : b ≠ p := fun h => hp.2.2 (h ▸ hb)
            by_cases hslot : b = toPhys parent ∧ j = idx
            · obtain ⟨rfl, rfl⟩ := hslot
              rw [childOf, hE, if_pos ⟨rfl, rfl⟩, hpext]
              refine ⟨by rw [hT]; exact Or.inl rfl, ?_⟩
              rw [if_pos rfl, if_neg hbp]
            · rw [entryValid, hE, if_neg hslot, if_neg hbp] at hv
              have hold : entryValid st b j := hv
              obtain ⟨hct, hcl⟩ := hwf.closure b j hb (by
                rw [if_neg hbp] at hlb
                exact hlb) hj hold
              have hchild : childOf (writeEntry (zeroTable st p) parent idx
                  (kernel_virt_to_phys p ||| PTE_TYPE_TABLE)) b j =
                  childOf st b j := by
                rw [childOf, hE, if_neg hslot, if_neg hbp, childOf]
              rw [hchild]
              have hcp : childOf st b j ≠ p := fun h => hp.2.2 (h ▸ hct)
              refine ⟨by rw [hT]; exact Or.inr hct, ?_⟩
              rw [if_neg hcp, if_neg hbp, hcl]
        · -- injectivity
          intro b j b' j' hb hb' hlb hlb' hj hj' hv hv' hcc
          rw [hT] at hb hb'
          rcases hb with rfl | hb
          · exfalso
            rw [entryValid, hE, if_neg (fun h => hppar h.1.symm),
              if_pos rfl] at hv
            simp at hv
          rcases hb' with rfl | hb'
          · exfalso
            rw [entryValid, hE, if_neg (fun h => hppar h.1.symm),
              if_pos rfl] at hv'
            simp at hv'
          have hbp : b ≠ p := fun h => hp.2.2 (h ▸ hb)
          have hbp' : b' ≠ p := fun h => hp.2.2 (h ▸ hb')
          by_cases hs : b = toPhys parent ∧ j = idx <;>
            by_cases hs' : b' = toPhys parent ∧ j' = idx
          · exact ⟨hs.1.trans hs'.1.symm, hs.2.trans hs'.2.symm⟩
          · exfalso
            rw [childOf, childOf, hE, hE, if_pos hs, hpext, if_neg hs',
              if_neg hbp'] at hcc
            rw [entryValid, hE, if_neg hs', if_neg hbp'] at hv'
            have hlb'' : lvl b' ≤ 2 := by
              rw [if_neg hbp'] at hlb'
              exact hlb'
            obtain ⟨hct', _⟩ := hwf.closure b' j' hb' hlb'' hj' hv'
            rw [childOf] at hct'
            rw [← hcc] at hct'
            exact hp.2.2 hct'
          · exfalso
            rw [childOf, childOf, hE, hE, if_neg hs, if_neg hbp, if_pos hs',
              hpext] at hcc
            rw [entryValid, hE, if_neg hs, if_neg hbp] at hv
            have hlb'' : lvl b ≤ 2 := by
              rw [if_neg hbp] at hlb
              exact hlb
            obtain ⟨hct, _⟩ := hwf.closure b j hb hlb'' hj hv
            rw [childOf] at hct
            rw [hcc] at hct
            exact hp.2.2 hct
          · rw [childOf, childOf, hE, hE, if_neg hs, if_neg hbp, if_neg hs',
              if_neg hbp'] at hcc
            rw [entryValid, hE, if_neg hs, if_neg hbp] at hv
            rw [entryValid, hE, if_neg hs', if_neg hbp'] at hv'
            exact hwf.inj b j b' j' hb hb'
              (by rw [if_neg hbp] at hlb; exact hlb)
              (by rw [if_neg hbp'] at hlb'; exact hlb') hj hj' hv hv' hcc
      · -- depth agreement on old tables
        intro b hb
        exact if_neg (fun h : b = p => hp.2.2 (h ▸ hb))
      · -- supply discipline
        refine ⟨(List.pairwise_cons.mp hsup.1).2, ?_⟩
        intro s hs
        have h1 := hsup.2 s (List.mem_cons_of_mem p hs)
        have hsp : p ≠ s := (List.pairwise_cons.mp hsup.1).1 s hs
        refine ⟨h1.1, h1.2.1, ?_⟩
        rw [hT]
        rintro (rfl | h)
        · exact hsp rfl
        · exact h1.2.2 h
      · -- domain growth
        intro b hb
        rw [hT] at hb
        rcases hb with rfl | hb
        · exact Or.inr (List.mem_cons_self b rest)
        · exact Or.inl hb
      · -- tables persist
        intro b hb
        rw [hT]
        exact Or.inr hb
      · -- valid entries untouched
        intro b j hb hv
        have hbp : b ≠ p := fun h => hp.2.2 (h ▸ hb)
        rw [hE, if_neg ?_, if_neg hbp]
        rintro ⟨rfl, rfl⟩
        exact hvalid' hv
      · -- the parent slot is now valid
        rw [entryValid, hE, if_pos ⟨rfl, rfl⟩]
        exact lor_three_valid p
      · -- and links the fresh table
        rw [childOf, hE, if_pos ⟨rfl, rfl⟩, hpext, htp]
      · -- which is allocated
        rw [hT, htp]
        exact Or.inl rfl
      · -- one level deeper
        rw [htp]
        exact if_pos rfl
  · have hvalid' : entryValid st (toPhys parent) idx := hvalid
    have hr : ensure_step st supply parent idx =
        (EOK, st, supply, readEntry st parent idx &&& PTE_TABLE_ADDR_MASK) := by
      simp only [ensure_step, if_neg hvalid]
    rw [hr]
    obtain ⟨hct, hcl⟩ := hwf.closure (toPhys parent) idx hpt hplvl hidx hvalid'
    have htc : toPhys (readEntry st parent idx &&& PTE_TABLE_ADDR_MASK) =
        readEntry st parent idx &&& PTE_TABLE_ADDR_MASK :=
      toPhys_low _ (mask_lt_kvb _)
    have hcid : childOf st (toPhys parent) idx =
        readEntry st parent idx &&& PTE_TABLE_ADDR_MASK := rfl
    refine ⟨lvl, hwf, fun b _ => rfl, hsup, fun b hb => Or.inl hb,
      fun b hb => hb, fun b j _ _ => rfl, rfl, hvalid', ?_, ?_, ?_⟩
    · rw [htc, hcid]
    · rw [htc, ← hcid]
      exact hct
    · rw [htc, ← hcid]
      exact hcl

/-- If the four entries a walk for `v` reads are unchanged between two
states (and the PGD base agrees), the walk's outcome is unchanged. -/
theorem kernel_mmu_translate_frame (st st' : MMUState) (v : Nat)
    (hpgd : pgdB st' = pgdB st)
    (h0 : entryAt st' (pgdB st) (pgd_index v) = entryAt st (pgdB st) (pgd_index v))
    (h1 : entryAt st' (chain1 st v) (pud_index v) =
      entryAt st (chain1 st v) (pud_index v))
    (h2 : entryAt st' (chain2 st v) (pmd_index v) =
      entryAt st (chain2 st v) (pmd_index v))
    (h3 : entryAt st' (chain3 st v) (pte_index v) =
      entryAt st (chain3 st v) (pte_index v)) :
    kernel_mmu_translate st' v = kernel_mmu_translate st v := by
  have hc1 : chain1 st' v = chain1 st v := by
    rw [chain1, chain1, childOf, childOf, hpgd, h0]
  have hc2 : chain2 st' v = chain2 st v := by
    rw [chain2, chain2, childOf, childOf, hc1, h1]
  have hc3 : chain3 st' v = chain3 st v := by
    rw [chain3, chain3, childOf, childOf, hc2, h2]
  rw [kernel_mmu_translate_eq, kernel_mmu_translate_eq st v, hpgd, h0, hc1, h1,
    hc2, h2, hc3, h3]

/-- A successful walk certifies every level's entry. -/
theorem translate_ok_elim (st : MMUState) (w q : Nat)
    (h : kernel_mmu_translate st w = (EOK, some q)) :
    entryValid st (pgdB st) (pgd_index w) ∧
    entryValid st (chain1 st w) (pud_index w) ∧
    entryValid st (chain2 st w) (pmd_index w) ∧
    entryAt st (chain3 st w) (pte_index w) &&& PTE_TYPE_PAGE ≠ 0 ∧
    q = (entryAt st (chain3 st w) (pte_index w) &&& PTE_BLOCK_ADDR_MASK) |||
      (w &&& (PAGE_SIZE - 1)) := by
  rw [kernel_mmu_translate_eq] at h
  split_ifs at h with h0 h1 h2 h3
  · exact absurd h (by simp [EOK, EFAULT])
  · exact absurd h (by simp [EOK, EFAULT])
  · exact absurd h (by simp [EOK, EFAULT])
  · exact absurd h (by simp [EOK, EFAULT])
  · have hq : some ((entryAt st (chain3 st w) (pte_index w) &&&
        PTE_BLOCK_ADDR_MASK) ||| (w &&& (PAGE_SIZE - 1))) = some q :=
      congrArg Prod.snd h
    exact ⟨h0, h1, h2, h3, (Option.some.injEq _ _ ▸ hq).symm⟩

/-- The tables a valid walk passes through, with their depths. -/
theorem chain_facts (st : MMUState) (lvl : Nat → Nat) (w : Nat)
    (hwf : MMUWF st lvl)
    (h0 : entryValid st (pgdB st) (pgd_index w))
    (h1 : entryValid st (chain1 st w) (pud_index w))
    (h2 : entryValid st (chain2 st w) (pmd_index w)) :
    isTable st (chain1 st w) ∧ lvl (chain1 st w) = 1 ∧
    isTable st (chain2 st w) ∧ lvl (chain2 st w) = 2 ∧
    isTable st (chain3 st w) ∧ lvl (chain3 st w) = 3 := by
  have hpl := hwf.pgd_lvl
  have c0 := hwf.closure (pgdB st) (pgd_index w) hwf.pgd_table (by omega)
    (pgd_index_lt w) h0
  have e0 : childOf st (pgdB st) (pgd_index w) = chain1 st w := rfl
  rw [e0] at c0
  obtain ⟨cT0, cL0⟩ := c0
  have c1 := hwf.closure (chain1 st w) (pud_index w) cT0 (by omega)
    (pud_index_lt w) h1
  have e1 : childOf st (chain1 st w) (pud_index w) = chain2 st w := rfl
  rw [e1] at c1
  obtain ⟨cT1, cL1⟩ := c1
  have c2 := hwf.closure (chain2 st w) (pmd_index w) cT1 (by omega)
    (pmd_index_lt w) h2
  have e2 : childOf st (chain2 st w) (pmd_index w) = chain3 st w := rfl
  rw [e2] at c2
  obtain ⟨cT2, cL2⟩ := c2
  exact ⟨cT0, by omega, cT1, by omega, cT2, by omega⟩

/-- Two valid walks with different index vectors end at different PTE
slots: by injectivity the chains cannot converge. -/
theorem chain_slot_inj (st : MMUState) (lvl : Nat → Nat) (v w : Nat)
    (hwf : MMUWF st lvl)
    (hv0 : entryValid st (pgdB st) (pgd_index v))
    (hv1 : entryValid st (chain1 st v) (pud_index v))
    (hv2 : entryValid st (chain2 st v) (pmd_index v))
    (hw0 : entryValid st (pgdB st) (pgd_index w))
    (hw1 : entryValid st (chain1 st w) (pud_index w))
    (hw2 : entryValid st (chain2 st w) (pmd_index w))
    (hne : vIdx v ≠ vIdx w) :
    ¬(chain3 st v = chain3 st w ∧ pte_index v = pte_index w) := by
  rintro ⟨hcc, hii⟩
  obtain ⟨hTv1, hLv1, hTv2, hLv2, _, _⟩ := chain_facts st lvl v hwf hv0 hv1 hv2
  obtain ⟨hTw1, hLw1, hTw2, hLw2, _, _⟩ := chain_facts st lvl w hwf hw0 hw1 hw2
  obtain ⟨hq2, hi2⟩ := hwf.inj (chain2 st v) (pmd_index v) (chain2 st w)
    (pmd_index w) hTv2 hTw2 (by omega) (by omega) (pmd_index_lt v)
    (pmd_index_lt w) hv2 hw2 hcc
  obtain ⟨hq1, hi1⟩ := hwf.inj (chain1 st v) (pud_index v) (chain1 st w)
    (pud_index w) hTv1 hTw1 (by omega) (by omega) (pud_index_lt v)
    (pud_index_lt w) hv1 hw1 hq2
  obtain ⟨_, hi0⟩ := hwf.inj (pgdB st) (pgd_index v) (pgdB st) (pgd_index w)
    hwf.pgd_table hwf.pgd_table (by rw [hwf.pgd_lvl]; omega)
    (by rw [hwf.pgd_lvl]; omega) (pgd_index_lt v) (pgd_index_lt w) hv0 hw0 hq1
  exact hne (by rw [vIdx, vIdx, hi0, hi1, hi2, hii])

/-- What one successful `map_page` guarantees: structure and supply
discipline continue to hold, the mapped virtual page now translates to
the installed PTE's address field, and every walk for a virtual address
with a different index vector is untouched. -/
theorem map_page_ok (st : MMUState) (lvl : Nat → Nat) (supply : List Nat)
    (v p attr : Nat) (hwf : MMUWF st lvl) (hsup : GoodSupply st supply)
    (hres : ¬((map_page st supply v p attr).1 < 0)) :
    ∃ lvl' : Nat → Nat,
      MMUWF (map_page st supply v p attr).2.1 lvl' ∧
      GoodSupply (map_page st supply v p attr).2.1
        (map_page st supply v p attr).2.2 ∧
      (map_page st supply v p attr).2.1.kernel_pgd = st.kernel_pgd ∧
      kernel_mmu_translate (map_page st supply v p attr).2.1 v =
        (EOK, some ((((p &&& PTE_BLOCK_ADDR_MASK) ||| attr ||| PTE_TYPE_PAGE) &&&
          PTE_BLOCK_ADDR_MASK) ||| (v &&& (PAGE_SIZE - 1)))) ∧
      (∀ w q, vIdx w ≠ vIdx v → kernel_mmu_translate st w = (EOK, some q) →
        kernel_mmu_translate (map_page st supply v p attr).2.1 w =
          (EOK, some q)) := by
  have hpgdBdef : pgdB st = toPhys st.kernel_pgd := rfl
  have hpl : lvl (pgdB st) = 0 := hwf.pgd_lvl
  -- Level 0 → 1
  rcases hE1 : ensure_pud st supply v with ⟨res1, r1⟩
  rcases r1 with ⟨st1, r1'⟩
  rcases r1' with ⟨supply1, pud_ptr⟩
  have hE1' : ensure_step st supply st.kernel_pgd (pgd_index v) =
      (res1, st1, supply1, pud_ptr) := by
    rw [← ensure_pud_eq st supply v hsup]
    exact hE1
  by_cases hr1 : res1 < 0
  · exfalso
    apply hres
    simp only [map_page, hE1, if_pos hr1]
    exact hr1
  have hok1 := ensure_step_ok st lvl supply st.kernel_pgd (pgd_index v) hwf hsup
    (hpgdBdef ▸ hwf.pgd_table) (by rw [← hpgdBdef, hpl]; omega)
    (pgd_index_lt v) (by rw [hE1']; exact hr1)
  rw [hE1'] at hok1
  dsimp only at hok1
  obtain ⟨lvl1, hwf1, hagr1, hsup1, hgrow1, hup1, hkeep1, hpgd1, hval1,
    hchild1, htab1, hlvl1⟩ := hok1
  have hL1 : lvl1 (toPhys pud_ptr) = 1 := by
    rw [hlvl1, ← hpgdBdef, hpl]
  -- Level 1 → 2
  rcases hE2 : ensure_pmd st1 supply1 v pud_ptr with ⟨res2, r2⟩
  rcases r2 with ⟨st2, r2'⟩
  rcases r2' with ⟨supply2, pmd_ptr⟩
  have hE2' : ensure_step st1 supply1 pud_ptr (pud_index v) =
      (res2, st2, supply2, pmd_ptr) := by
    rw [← ensure_pmd_eq]
    exact hE2
  by_cases hr2 : res2 < 0
  · exfalso
    apply hres
    simp only [map_page, hE1, if_neg hr1, hE2, if_pos hr2]
    exact hr2
  have hok2 := ensure_step_ok st1 lvl1 supply1 pud_ptr (pud_index v) hwf1 hsup1
    htab1 (by omega) (pud_index_lt v) (by rw [hE2']; exact hr2)
  rw [hE2'] at hok2
  dsimp only at hok2
  obtain ⟨lvl2, hwf2, hagr2, hsup2, hgrow2, hup2, hkeep2, hpgd2, hval2,
    hchild2, htab2, hlvl2⟩ := hok2
  have hL2 : lvl2 (toPhys pmd_ptr) = 2 := by
    rw [hlvl2, hL1]
  -- Level 2 → 3
  rcases hE3 : ensure_pt st2 supply2 v pmd_ptr with ⟨res3, r3⟩
  rcases r3 with ⟨st3, r3'⟩
  rcases r3' with ⟨supply3, pt_ptr⟩
  have hE3' : ensure_step st2 supply2 pmd_ptr (pmd_index v) =
      (res3, st3, supply3, pt_ptr) := by
    rw [← ensure_pt_eq]
    exact hE3
  by_cases hr3 : res3 < 0
  · exfalso
    apply hres
    simp only [map_page, hE1, if_neg hr1, hE2, if_neg hr2, hE3, if_pos hr3]
    exact hr3
  have hL2' : lvl2 (toPhys pmd_ptr) ≤ 2 := by omega
  have hok3 := ensure_step_ok st2 lvl2 supply2 pmd_ptr (pmd_index v) hwf2 hsup2
    htab2 hL2' (pmd_index_lt v) (by rw [hE3']; exact hr3)
  rw [hE3'] at hok3
  dsimp only at hok3
  obtain ⟨lvl3, hwf3, hagr3, hsup3, hgrow3, hup3, hkeep3, hpgd3, hval3,
    hchild3, htab3, hlvl3⟩ := hok3
  have hL3 : lvl3 (toPhys pt_ptr) = 3 := by
    rw [hlvl3, hL2]
  -- The final state: the leaf write
  have hmp : map_page st supply v p attr =
      (EOK, writeEntry st3 pt_ptr (pte_index v)
        ((p &&& PTE_BLOCK_ADDR_MASK) ||| attr ||| PTE_TYPE_PAGE), supply3) := by
    simp only [map_page, hE1, if_neg hr1, hE2, if_neg hr2, hE3, if_neg hr3]
  rw [hmp]
  dsimp only
  -- Composite facts across st → st1 → st2 → st3
  have hpgd13 : st3.kernel_pgd = st.kernel_pgd := by
    rw [hpgd3, hpgd2, hpgd1]
  have hpgdB3 : pgdB st3 = pgdB st := by
    rw [pgdB, pgdB, hpgd13]
  have hdom13 : ∀ b, isTable st b → isTable st3 b :=
    fun b hb => hup3 b (hup2 b (hup1 b hb))
  have hagr13 : ∀ b, isTable st b → lvl3 b = lvl b := by
    intro b hb
    rw [hagr3 b (hup2 b (hup1 b hb)), hagr2 b (hup1 b hb), hagr1 b hb]
  have hkeep13 : ∀ b j, isTable st b → entryValid st b j →
      entryAt st3 b j = entryAt st b j := by
    intro b j hb hv
    have e1 := hkeep1 b j hb hv
    have hb1 := hup1 b hb
    have hv1 : entryValid st1 b j := by
      rw [entryValid, e1]
      exact hv
    have e2 := hkeep2 b j hb1 hv1
    have hb2 := hup2 b hb1
    have hv2 : entryValid st2 b j := by
      rw [entryValid, e2, e1]
      exact hv
    have e3 := hkeep3 b j hb2 hv2
    rw [e3, e2, e1]
  -- Table facts for the pgd and for v's chain in st3
  have hTpgd1 : isTable st1 (toPhys st.kernel_pgd) := by
    have h := hwf1.pgd_table
    rw [pgdB, hpgd1] at h
    exact h
  have hTpgd2 : isTable st2 (toPhys st.kernel_pgd) := hup2 _ hTpgd1
  have hTpud2 : isTable st2 (toPhys pud_ptr) := hup2 _ htab1
  have hTpud3 : isTable st3 (toPhys pud_ptr) := hup3 _ hTpud2
  have hTpmd3 : isTable st3 (toPhys pmd_ptr) := hup3 _ htab2
  -- v's chain entries in st3
  have cv0e : entryAt st3 (toPhys st.kernel_pgd) (pgd_index v) =
      entryAt st1 (toPhys st.kernel_pgd) (pgd_index v) := by
    have e2 := hkeep2 _ _ hTpgd1 hval1
    have hv2 : entryValid st2 (toPhys st.kernel_pgd) (pgd_index v) := by
      rw [entryValid, e2]
      exact hval1
    have e3 := hkeep3 _ _ hTpgd2 hv2
    rw [e3, e2]
  have cv0 : entryValid st3 (toPhys st.kernel_pgd) (pgd_index v) := by
    rw [entryValid, cv0e]
    exact hval1
  have cc1 : chain1 st3 v = toPhys pud_ptr := by
    rw [chain1, hpgdB3, hpgdBdef, childOf, cv0e, ← childOf, hchild1]
  have cv1e : entryAt st3 (toPhys pud_ptr) (pud_index v) =
      entryAt st2 (toPhys pud_ptr) (pud_index v) :=
    hkeep3 _ _ hTpud2 hval2
  have cv1 : entryValid st3 (toPhys pud_ptr) (pud_index v) := by
    rw [entryValid, cv1e]
    exact hval2
  have cc2 : chain2 st3 v = toPhys pmd_ptr := by
    rw [chain2, cc1, childOf, cv1e, ← childOf, hchild2]
  have cv2 : entryValid st3 (toPhys pmd_ptr) (pmd_index v) := hval3
  have cc3 : chain3 st3 v = toPhys pt_ptr := by
    rw [chain3, cc2, hchild3]
  -- the leaf write target is a depth-3 table, distinct from every
  -- depth ≤ 2 table
  have hne_pt : ∀ b, isTable st3 b → lvl3 b ≤ 2 → b ≠ toPhys pt_ptr := by
    intro b _ hl h
    rw [h, hL3] at hl
    omega
  have hE4 : ∀ b k, entryAt (writeEntry st3 pt_ptr (pte_index v)
      ((p &&& PTE_BLOCK_ADDR_MASK) ||| attr ||| PTE_TYPE_PAGE)) b k =
      if b = toPhys pt_ptr ∧ k = pte_index v then
        (p &&& PTE_BLOCK_ADDR_MASK) ||| attr ||| PTE_TYPE_PAGE
      else entryAt st3 b k := fun b k => entryAt_write st3 pt_ptr _ _ b k
  have hT4 : ∀ b, isTable (writeEntry st3 pt_ptr (pte_index v)
      ((p &&& PTE_BLOCK_ADDR_MASK) ||| attr ||| PTE_TYPE_PAGE)) b ↔
      b = toPhys pt_ptr ∨ isTable st3 b := fun b => isTable_write st3 pt_ptr _ _ b
  have hpgdB4 : pgdB (writeEntry st3 pt_ptr (pte_index v)
      ((p &&& PTE_BLOCK_ADDR_MASK) ||| attr ||| PTE_TYPE_PAGE)) = pgdB st3 := rfl
  refine ⟨lvl3, ?_, ?_, ?_, ?_, ?_⟩
  · -- well-formedness survives the leaf write
    refine ⟨?_, ?_, ?_, ?_⟩
    · rw [hpgdB4, hT4]
      exact Or.inr hwf3.pgd_table
    · rw [hpgdB4]
      exact hwf3.pgd_lvl
    · intro b j hb hl hj hv
      rw [hT4] at hb
      rcases hb with rfl | hb
      · rw [hL3] at hl
        omega
      · have hbne : ¬(b = toPhys pt_ptr ∧ j = pte_index v) := by
          rintro ⟨rfl, _⟩
          rw [hL3] at hl
          omega
        rw [entryValid, hE4, if_neg hbne] at hv
        obtain ⟨hct, hcl⟩ := hwf3.closure b j hb hl hj hv
        have hch : childOf (writeEntry st3 pt_ptr (pte_index v)
            ((p &&& PTE_BLOCK_ADDR_MASK) ||| attr ||| PTE_TYPE_PAGE)) b j =
            childOf st3 b j := by
          rw [childOf, hE4, if_neg hbne, childOf]
        rw [hch]
        exact ⟨(hT4 _).mpr (Or.inr hct), hcl⟩
    · intro b j b' j' hb hb' hlb hlb' hj hj' hv hv' hcc
      rw [hT4] at hb hb'
      rcases hb with rfl | hb
      · rw [hL3] at hlb
        omega
      rcases hb' with rfl | hb'
      · rw [hL3] at hlb'
        omega
      have hbne : ¬(b = toPhys pt_ptr ∧ j = pte_index v) := by
        rintro ⟨rfl, _⟩
        rw [hL3] at hlb
        omega
      have hbne' : ¬(b' = toPhys pt_ptr ∧ j' = pte_index v) := by
        rintro ⟨rfl, _⟩
        rw [hL3] at hlb'
        omega
      rw [entryValid, hE4, if_neg hbne] at hv
      rw [entryValid, hE4, if_neg hbne'] at hv'
      rw [childOf, childOf, hE4, hE4, if_neg hbne, if_neg hbne'] at hcc
      exact hwf3.inj b j b' j' hb hb' hlb hlb' hj hj' hv hv' hcc
  · -- supply discipline survives
    refine ⟨hsup3.1, ?_⟩
    intro s hs
    have h1 := hsup3.2 s hs
    refine ⟨h1.1, h1.2.1, ?_⟩
    rw [hT4]
    rintro (rfl | h)
    · exact h1.2.2 htab3
    · exact h1.2.2 h
  · -- the kernel pgd pointer is untouched
    rw [writeEntry_pgd, hpgd13]
  · -- the mapped page translates to the installed PTE
    have hTpgd3 : isTable st3 (toPhys st.kernel_pgd) := hup3 _ hTpgd2
    have hl3pgd : lvl3 (toPhys st.kernel_pgd) = 0 := by
      rw [← hpgdBdef, hagr13 _ hwf.pgd_table, hpl]
    have hl3pud : lvl3 (toPhys pud_ptr) = 1 := by
      rw [hagr3 _ hTpud2, hagr2 _ htab1, hL1]
    have hl3pmd : lvl3 (toPhys pmd_ptr) = 2 := by
      rw [hagr3 _ htab2, hL2]
    have hne_pgd : toPhys st.kernel_pgd ≠ toPhys pt_ptr :=
      hne_pt _ hTpgd3 (by omega)
    have hne_pud : toPhys pud_ptr ≠ toPhys pt_ptr :=
      hne_pt _ hTpud3 (by omega)
    have hne_pmd : toPhys pmd_ptr ≠ toPhys pt_ptr :=
      hne_pt _ hTpmd3 (by omega)
    rw [kernel_mmu_translate_eq]
    have e0 : entryAt (writeEntry st3 pt_ptr (pte_index v)
        ((p &&& PTE_BLOCK_ADDR_MASK) ||| attr ||| PTE_TYPE_PAGE))
        (pgdB (writeEntry st3 pt_ptr (pte_index v)
          ((p &&& PTE_BLOCK_ADDR_MASK) ||| attr ||| PTE_TYPE_PAGE)))
        (pgd_index v) =
        entryAt st3 (toPhys st.kernel_pgd) (pgd_index v) := by
      rw [hpgdB4, hpgdB3, hpgdBdef, hE4, if_neg (fun h => hne_pgd h.1)]
    rw [if_neg (by rw [e0]; exact cv0)]
    have hc1 : chain1 (writeEntry st3 pt_ptr (pte_index v)
        ((p &&& PTE_BLOCK_ADDR_MASK) ||| attr ||| PTE_TYPE_PAGE)) v =
        toPhys pud_ptr := by
      rw [chain1, childOf, e0, ← childOf]
      rw [show childOf st3 (toPhys st.kernel_pgd) (pgd_index v) =
        chain1 st3 v from by rw [chain1, hpgdB3, hpgdBdef], cc1]
    have e1 : entryAt (writeEntry st3 pt_ptr (pte_index v)
        ((p &&& PTE_BLOCK_ADDR_MASK) ||| attr ||| PTE_TYPE_PAGE))
        (chain1 (writeEntry st3 pt_ptr (pte_index v)
          ((p &&& PTE_BLOCK_ADDR_MASK) ||| attr ||| PTE_TYPE_PAGE)) v)
        (pud_index v) =
        entryAt st3 (toPhys pud_ptr) (pud_index v) := by
      rw [hc1, hE4, if_neg (fun h => hne_pud h.1)]
    rw [if_neg (by rw [e1]; exact cv1)]
    have hc2 : chain2 (writeEntry st3 pt_ptr (pte_index v)
        ((p &&& PTE_BLOCK_ADDR_MASK) ||| attr ||| PTE_TYPE_PAGE)) v =
        toPhys pmd_ptr := by
      rw [chain2, childOf, e1, ← childOf]
      rw [show childOf st3 (toPhys pud_ptr) (pud_index v) =
        chain2 st3 v from by rw [chain2, cc1], cc2]
    have e2 : entryAt (writeEntry st3 pt_ptr (pte_index v)
        ((p &&& PTE_BLOCK_ADDR_MASK) ||| attr ||| PTE_TYPE_PAGE))
        (chain2 (writeEntry st3 pt_ptr (pte_index v)
          ((p &&& PTE_BLOCK_ADDR_MASK) ||| attr ||| PTE_TYPE_PAGE)) v)
        (pmd_index v) =
        entryAt st3 (toPhys pmd_ptr) (pmd_index v) := by
      rw [hc2, hE4, if_neg (fun h => hne_pmd h.1)]
    rw [if_neg (by rw [e2]; exact cv2)]
    have hc3 : chain3 (writeEntry st3 pt_ptr (pte_index v)
        ((p &&& PTE_BLOCK_ADDR_MASK) ||| attr ||| PTE_TYPE_PAGE)) v =
        toPhys pt_ptr := by
      rw [chain3, childOf, e2, ← childOf]
      rw [show childOf st3 (toPhys pmd_ptr) (pmd_index v) =
        chain3 st3 v from by rw [chain3, cc2], cc3]
    have e3 : entryAt (writeEntry st3 pt_ptr (pte_index v)
        ((p &&& PTE_BLOCK_ADDR_MASK) ||| attr ||| PTE_TYPE_PAGE))
        (chain3 (writeEntry st3 pt_ptr (pte_index v)
          ((p &&& PTE_BLOCK_ADDR_MASK) ||| attr ||| PTE_TYPE_PAGE)) v)
        (pte_index v) =
        (p &&& PTE_BLOCK_ADDR_MASK) ||| attr ||| PTE_TYPE_PAGE := by
      rw [hc3, hE4, if_pos ⟨rfl, rfl⟩]
    rw [if_neg (by rw [e3]; exact lor_three_valid _), e3]
  · -- every other walk is untouched
    intro w q hnewv htr
    obtain ⟨w0, w1, w2, w3, _⟩ := translate_ok_elim st w q htr
    obtain ⟨WT1, WL1, WT2, WL2, WT3, WL3⟩ := chain_facts st lvl w hwf w0 w1 w2
    have hTpgdst : isTable st (pgdB st) := hwf.pgd_table
    have k0 := hkeep13 _ _ hTpgdst w0
    have k1 := hkeep13 _ _ WT1 w1
    have k2 := hkeep13 _ _ WT2 w2
    have k3 := hkeep13 _ _ WT3 w3
    have wc1 : chain1 st3 w = chain1 st w := by
      rw [chain1, chain1, hpgdB3, childOf, childOf, k0]
    have wc2 : chain2 st3 w = chain2 st w := by
      rw [chain2, chain2, wc1, childOf, childOf, k1]
    have wc3 : chain3 st3 w = chain3 st w := by
      rw [chain3, chain3, wc2, childOf, childOf, k2]
    have w0' : entryValid st3 (pgdB st3) (pgd_index w) := by
      rw [entryValid, hpgdB3, k0]
      exact w0
    have w1' : entryValid st3 (chain1 st3 w) (pud_index w) := by
      rw [entryValid, wc1, k1]
      exact w1
    have w2' : entryValid st3 (chain2 st3 w) (pmd_index w) := by
      rw [entryValid, wc2, k2]
      exact w2
    have v0' : entryValid st3 (pgdB st3) (pgd_index v) := by
      rw [entryValid, hpgdB3, hpgdBdef]
      exact cv0
    have v1' : entryValid st3 (chain1 st3 v) (pud_index v) := by
      rw [entryValid, cc1]
      exact cv1
    have v2' : entryValid st3 (chain2 st3 v) (pmd_index v) := by
      rw [entryValid, cc2]
      exact cv2
    have hslot := chain_slot_inj st3 lvl3 w v hwf3 w0' w1' w2' v0' v1' v2' hnewv
    rw [← htr]
    apply kernel_mmu_translate_frame
    · rw [hpgdB4, hpgdB3]
    · rw [hE4, if_neg (fun h => hne_pt _ (hdom13 _ hTpgdst)
        (by rw [hagr13 _ hTpgdst, hpl]; omega) (hpgdBdef ▸ h.1)), k0]
    · rw [hE4, if_neg (fun h => hne_pt _ (hdom13 _ WT1)
        (by rw [hagr13 _ WT1, WL1]; omega) h.1), k1]
    · rw [hE4, if_neg (fun h => hne_pt _ (hdom13 _ WT2)
        (by rw [hagr13 _ WT2, WL2]) h.1), k2]
    · rw [hE4, if_neg (fun h => hslot ⟨(wc3.trans h.1).trans cc3.symm, h.2⟩), k3]

/-- The four walk indices are the base-512 digits of `v / 2^12 % 2^36`. -/
theorem vDigits (v : Nat) :
    pte_index v + 2 ^ 9 * pmd_index v + 2 ^ 18 * pud_index v +
      2 ^ 27 * pgd_index v = v / 2 ^ 12 % 2 ^ 36 := by
  have h39 : v >>> 39 = v / 2 ^ 12 / 2 ^ 27 := by
    rw [Nat.shiftRight_eq_div_pow, Nat.div_div_eq_div_mul]
    norm_num
  have h30 : v >>> 30 = v / 2 ^ 12 / 2 ^ 18 := by
    rw [Nat.shiftRight_eq_div_pow, Nat.div_div_eq_div_mul]
    norm_num
  have h21 : v >>> 21 = v / 2 ^ 12 / 2 ^ 9 := by
    rw [Nat.shiftRight_eq_div_pow, Nat.div_div_eq_div_mul]
    norm_num
  have h12 : v >>> 12 = v / 2 ^ 12 := Nat.shiftRight_eq_div_pow v 12
  rw [pgd_index, pud_index, pmd_index, pte_index, TABLE_IDX_MASK, PGD_SHIFT,
    PUD_SHIFT, PMD_SHIFT, PTE_SHIFT, h39, h30, h21, h12, and_511_eq_mod,
    and_511_eq_mod, and_511_eq_mod, and_511_eq_mod]
  omega

/-- Distinct pages of a page-aligned virtual range that does not wrap
the 48-bit field have distinct walk-index vectors. -/
theorem vIdx_pages_ne (virt0 j j' pages : Nat) (hal : virt0 % PAGE_SIZE = 0)
    (hrange : virt0 % 2 ^ 48 + pages * PAGE_SIZE ≤ 2 ^ 48)
    (hj : j < pages) (hj' : j' < pages) (hne : j ≠ j') :
    vIdx (virt0 + j * PAGE_SIZE) ≠ vIdx (virt0 + j' * PAGE_SIZE) := by
  intro h
  rw [vIdx, vIdx, Prod.mk.injEq, Prod.mk.injEq, Prod.mk.injEq] at h
  obtain ⟨h0, h1, h2, h3⟩ := h
  have d1 := vDigits (virt0 + j * PAGE_SIZE)
  have d2 := vDigits (virt0 + j' * PAGE_SIZE)
  rw [h0, h1, h2, h3] at d1
  rw [d2] at d1
  rw [PAGE_SIZE] at hal hrange d1
  omega

/-- Induction core for C5: running the page loop from page `i` with `n`
pages to go preserves well-formedness and establishes the translation
of every page processed so far, for ranges that stay inside the 48-bit
address field. -/
theorem map_loop_ok (virt0 phys0 attr : Nat)
    (hattr : attr &&& PTE_TABLE_ADDR_MASK = 0)
    (hva : virt0 % PAGE_SIZE = 0) (hpa : phys0 % PAGE_SIZE = 0)
    (hv64 : virt0 < 2 ^ 64) :
    ∀ n i st lvl supply,
      MMUWF st lvl → GoodSupply st supply →
      virt0 % 2 ^ 48 + (i + n) * PAGE_SIZE ≤ 2 ^ 48 →
      phys0 + (i + n) * PAGE_SIZE ≤ 2 ^ 48 →
      (∀ j, j < i → kernel_mmu_translate st (virt0 + j * PAGE_SIZE) =
        (EOK, some (phys0 + j * PAGE_SIZE))) →
      ¬((map_loop virt0 phys0 attr st supply i n).1 < 0) →
      ∃ lvl', MMUWF (map_loop virt0 phys0 attr st supply i n).2.1 lvl' ∧
        ∀ j, j < i + n →
          kernel_mmu_translate (map_loop virt0 phys0 attr st supply i n).2.1
            (virt0 + j * PAGE_SIZE) = (EOK, some (phys0 + j * PAGE_SIZE)) := by
  intro n
  induction n with
  | zero =>
    intro i st lvl supply hwf _ _ _ hinv _
    exact ⟨lvl, hwf, fun j hj => hinv j hj⟩
  | succ n ih =>
    intro i st lvl supply hwf hsup hvr hpr hinv hres
    have hPS : (PAGE_SIZE : Nat) = 4096 := rfl
    have hvr4 : virt0 % 2 ^ 48 + (i + (n + 1)) * 4096 ≤ 2 ^ 48 := hPS ▸ hvr
    have hpr4 : phys0 + (i + (n + 1)) * 4096 ≤ 2 ^ 48 := hPS ▸ hpr
    have hva4 : virt0 % 4096 = 0 := hPS ▸ hva
    have hpa4 : phys0 % 4096 = 0 := hPS ▸ hpa
    have hcv : (virt0 + i * PAGE_SIZE) % 2 ^ 64 = virt0 + i * PAGE_SIZE := by
      rw [hPS]
      omega
    have hcp : (phys0 + i * PAGE_SIZE) % 2 ^ 64 = phys0 + i * PAGE_SIZE := by
      rw [hPS]
      omega
    rcases hE : map_page st supply (virt0 + i * PAGE_SIZE)
        (phys0 + i * PAGE_SIZE) attr with ⟨res, st2, supply2⟩
    have hunf : map_loop virt0 phys0 attr st supply i (n + 1) =
        if res < 0 then (res, st2, supply2)
        else map_loop virt0 phys0 attr st2 supply2 (i + 1) n := by
      simp only [map_loop, hcv, hcp, hE]
    rw [hunf] at hres ⊢
    by_cases hr : res < 0
    · rw [if_pos hr] at hres
      exact absurd hr hres
    · rw [if_neg hr] at hres ⊢
      have hmpres : ¬((map_page st supply (virt0 + i * PAGE_SIZE)
          (phys0 + i * PAGE_SIZE) attr).1 < 0) := by
        rw [hE]
        exact hr
      obtain ⟨lvl2, hwf2, hsup2, _, htrV, hpres⟩ :=
        map_page_ok st lvl supply (virt0 + i * PAGE_SIZE)
          (phys0 + i * PAGE_SIZE) attr hwf hsup hmpres
      rw [hE] at hwf2 hsup2 htrV hpres
      have h48p : phys0 + i * PAGE_SIZE < 2 ^ 48 := by
        rw [hPS]
        omega
      have h4p : (phys0 + i * PAGE_SIZE) % 4096 = 0 := by
        rw [hPS]
        omega
      have hbm : (PTE_BLOCK_ADDR_MASK : Nat) = PTE_TABLE_ADDR_MASK := rfl
      have hzlow : (virt0 + i * PAGE_SIZE) &&& (PAGE_SIZE - 1) = 0 := by
        have h1 : (PAGE_SIZE : Nat) - 1 = 4095 := rfl
        rw [h1, and_4095_eq_mod, hPS]
        omega
      have hval : ((((phys0 + i * PAGE_SIZE) &&& PTE_BLOCK_ADDR_MASK) |||
          attr ||| PTE_TYPE_PAGE) &&& PTE_BLOCK_ADDR_MASK) |||
          ((virt0 + i * PAGE_SIZE) &&& (PAGE_SIZE - 1)) =
          phys0 + i * PAGE_SIZE := by
        rw [pte_extract _ _ hattr, hzlow, Nat.or_zero, hbm,
          land_addr_mask_self _ h4p h48p]
      rw [hval] at htrV
      have hinv' : ∀ j, j < i + 1 →
          kernel_mmu_translate st2 (virt0 + j * PAGE_SIZE) =
            (EOK, some (phys0 + j * PAGE_SIZE)) := by
        intro j hj
        by_cases hji : j = i
        · subst hji
          exact htrV
        · exact hpres (virt0 + j * PAGE_SIZE) (phys0 + j * PAGE_SIZE)
            (vIdx_pages_ne virt0 j i (i + n + 1) hva hvr (by omega) (by omega)
              hji) (hinv j (by omega))
      have hco : i + 1 + n = i + (n + 1) := by omega
      have hvr' : virt0 % 2 ^ 48 + (i + 1 + n) * PAGE_SIZE ≤ 2 ^ 48 := by
        rw [hco]
        exact hvr
      have hpr' : phys0 + (i + 1 + n) * PAGE_SIZE ≤ 2 ^ 48 := by
        rw [hco]
        exact hpr
      obtain ⟨lvl3, hwf3, htr3⟩ := ih (i + 1) st2 lvl2 supply2 hwf2 hsup2
        hvr' hpr' hinv' hres
      exact ⟨lvl3, hwf3, fun j hj => htr3 j (by omega)⟩

/-- The fresh single-PGD store is well formed with every depth 0. -/
theorem mmuInit_wf : MMUWF mmuInit (fun _ => 0) := by
  have hz : ∀ b j, entryAt mmuInit b j = 0 := by
    intro b j
    rw [entryAt]
    by_cases h : b = 0x40000
    · subst h
      rfl
    · simp [mmuInit, h]
  refine ⟨?_, rfl, ?_, ?_⟩
  · rfl
  · intro b j _ _ _ hv
    exfalso
    rw [entryValid, hz] at hv
    exact hv rfl
  · intro b j b' j' _ _ _ _ _ _ hvb _ _
    exfalso
    rw [entryValid, hz] at hvb
    exact hvb rfl

/-- The three-page kmalloc supply is good for the fresh store. -/
theorem mmuInit_goodSupply :
    GoodSupply mmuInit [0x41000, 0x42000, 0x43000] := by
  rw [GoodSupply]
  refine ⟨by decide, ?_⟩
  intro s hs
  have hnt : ∀ t : Nat, t ≠ 0x40000 → ¬isTable mmuInit t := by
    intro t ht hT
    rw [isTable] at hT
    simp [mmuInit, ht] at hT
  have hcase : s = 0x41000 ∨ s = 0x42000 ∨ s = 0x43000 := by simpa using hs
  rcases hcase with h | h | h <;> subst h <;>
    exact ⟨by decide, by decide, hnt _ (by norm_num)⟩

/-! ## C5: the map / translate round trip -/

/-- C5: if `kernel_mmu_map(phys, virt, size, flags)` succeeds then for
every page-aligned offset `k` with `k < size`, the page-table walk
`kernel_mmu_translate` on the resulting tables succeeds on `virt + k`
and yields exactly `phys + k`.  Stated over any well-formed table store
with a good kmalloc supply, for page-aligned `phys` and `virt` whose
ranges stay inside the 48-bit address field of the translation
scheme. -/
theorem kernel_mmu_map_translate_roundtrip
    (st : MMUState) (lvl : Nat → Nat) (supply : List Nat)
    (phys virt size flags k : Nat)
    (hwf : MMUWF st lvl) (hsup : GoodSupply st supply)
    (hpa : phys % PAGE_SIZE = 0) (hva : virt % PAGE_SIZE = 0)
    (hv64 : virt < 2 ^ 64)
    (hvr : virt % 2 ^ 48 + size ≤ 2 ^ 48)
    (hpr : phys + size ≤ 2 ^ 48)
    (hres : (kernel_mmu_map st supply phys virt size flags).1 = EOK)
    (hk : k % PAGE_SIZE = 0) (hklt : k < size) :
    kernel_mmu_translate (kernel_mmu_map st supply phys virt size flags).2.1
      (virt + k) = (EOK, some (phys + k)) := by
  have hPS : (PAGE_SIZE : Nat) = 4096 := rfl
  have hpa4 : phys % 4096 = 0 := hPS ▸ hpa
  have hva4 : virt % 4096 = 0 := hPS ▸ hva
  have hk4 : k % 4096 = 0 := hPS ▸ hk
  have hunf : kernel_mmu_map st supply phys virt size flags =
      map_loop virt phys (flags_to_pte_attr flags) st supply 0
        ((size + (PAGE_SIZE - 1)) % 2 ^ 64 / PAGE_SIZE * PAGE_SIZE /
          PAGE_SIZE) := by
    simp only [kernel_mmu_map, hpa, hva, Nat.sub_zero]
  have hpages : (size + (PAGE_SIZE - 1)) % 2 ^ 64 / PAGE_SIZE * PAGE_SIZE /
      PAGE_SIZE = (size + 4095) / 4096 := by
    rw [hPS]
    omega
  rw [hunf, hpages] at hres ⊢
  obtain ⟨L, hwfL, htr⟩ := map_loop_ok virt phys (flags_to_pte_attr flags)
    (flags_to_pte_attr_mask_free flags) hva hpa hv64 ((size + 4095) / 4096) 0
    st lvl supply hwf hsup (by rw [hPS]; omega) (by rw [hPS]; omega)
    (fun j hj => absurd hj (Nat.not_lt_zero j))
    (by rw [hres]; decide)
  have hje := htr (k / 4096) (by omega)
  have hkk : k / 4096 * PAGE_SIZE = k := by
    rw [hPS]
    omega
  rw [hkk] at hje
  exact hje

/-- Witness: on the fresh store `mmuInit` with three kmalloc pages
available, mapping one page `phys 0x1000 → virt 0x4000` succeeds and
the subsequent walk of `0x4000` yields `0x1000`. -/
theorem kernel_mmu_map_translate_roundtrip_witness :
    kernel_mmu_translate
      (kernel_mmu_map mmuInit [0x41000, 0x42000, 0x43000]
        0x1000 0x4000 4096 0).2.1 (0x4000 + 0) = (EOK, some (0x1000 + 0)) :=
  kernel_mmu_map_translate_roundtrip mmuInit (fun _ => 0)
    [0x41000, 0x42000, 0x43000] 0x1000 0x4000 4096 0 0
    mmuInit_wf mmuInit_goodSupply (by decide) (by decide) (by decide)
    (by decide) (by decide) (by decide) (by decide) (by decide)

/-- Witness for `process_malloc_x0_sign_extension` at the address
`0x80000000`. -/
theorem process_malloc_x0_sign_extension_witness :
    syscall_process_malloc true 64 0x80000000 = int_of_uint64 0x80000000 ∧
    process_malloc_x0 0x80000000 % 2 ^ 32 = 0x80000000 % 2 ^ 32 ∧
    (process_malloc_x0 0x80000000 = 0x80000000 ↔
      (0x80000000 < 2 ^ 31 ∨ 2 ^ 64 - 2 ^ 31 ≤ 0x80000000)) ∧
    syscall_process_malloc true 64 0 = 0 ∧
    (∀ size : Int, size ≤ 0 → syscall_process_malloc true size 0x80000000 = 0) ∧
    (∀ size : Int, syscall_process_malloc false size 0x80000000 = 0) :=
  process_malloc_x0_sign_extension 0x80000000 (by norm_num)

end Synapse
